import Mathlib

/-!
Verification of the FEDWire tag codec (moov-io wire branch).

Records are modelled as `List Char`; all inputs of interest are ASCII, so Go's
byte length, `utf8.RuneCountInString` and `List.length` coincide.  The per-tag
`Parse`, `String`, `Validate` and `fieldInclusion` operations and the dispatch
`Reader` are translated from the Go source.  The shared codec primitives
(`parseVariableStringField`, `parseStringField`, `alphaField`,
`alphaVariableField`, `stripDelimiters`), the validator predicates and the
`Charges` tag are not part of the provided source tree; they are modelled from
the specification (each such definition carries a doc comment saying so).
-/

namespace Wire

/-- Shorthand: a string literal as a list of characters. -/
def cs (s : String) : List Char := s.toList

/-- The variable-length field terminator character of the wire format. -/
def delim : Char := '*'

/-- `v` contains no delimiter character. -/
def noStar (v : List Char) : Bool := v.all (fun c => c ≠ '*')

/-- `v` does not end in a space (pad) character. -/
def noTrailSpace (v : List Char) : Bool :=
  match v.getLast? with
  | none => true
  | some c => c ≠ ' '

/-- Modelled from the spec: trailing pad characters (spaces) are trimmed from
decoded field values. -/
def trimRightSpaces (v : List Char) : List Char :=
  (v.reverse.dropWhile (fun c => c = ' ')).reverse

/-- Index of the first delimiter in a record remainder, if any. -/
def findDelim : List Char → Option Nat
  | [] => none
  | c :: rest => if c = '*' then some 0 else (findDelim rest).map (· + 1)

/-- Modelled from the spec: `decode_variable(input, max_width)`.  A terminator
before `max_width` ends the field early (value is everything before it,
consumed = index + 1); otherwise the field occupies the scanned window of up to
`max_width` characters, trimmed of trailing pad.  A terminator sitting
immediately after a full window is consumed with the window, so that the
compacted form `value ++ "*"` decodes back to `value` for every value that fits
the width, as the spec's codec contract requires (`decode(encode(v, compact)) ==
v`).  The codec itself never fails: the surrounding tag decode is responsible
for length accounting, and an empty remainder yields an empty value consuming
nothing (pinned by the `"\x7b3700\x7dB*"` test). -/
def parseVariableStringField (r : List Char) (maxLen : Nat) : List Char × Nat :=
  match findDelim r with
  | some i =>
      if i < maxLen then (r.take i, i + 1)
      else if i = maxLen then (trimRightSpaces (r.take maxLen), maxLen + 1)
      else (trimRightSpaces (r.take maxLen), maxLen)
  | none => (trimRightSpaces (r.take maxLen), min maxLen r.length)

/-- Modelled from the spec: the fixed-width decode trims trailing pad
characters from the slice handed to it by the tag decoder. -/
def parseStringField (r : List Char) : List Char := trimRightSpaces r

/-- Modelled from the spec: `encode_fixed` right-pads with spaces to exactly
`maxLen` characters; an over-long value is not truncated (callers are expected
to guarantee value length via validation). -/
def alphaField (v : List Char) (maxLen : Nat) : List Char :=
  v ++ List.replicate (maxLen - v.length) ' '

/-- Modelled from the spec: `encode_variable` emits `value ++ "*"` in compact
mode and the space-padded fixed-width form in legacy mode. -/
def alphaVariableField (v : List Char) (maxLen : Nat) (isVariable : Bool) : List Char :=
  if isVariable then v ++ ['*'] else alphaField v maxLen

/-- Modelled from the spec and the Charges serialization test: a trailing run
of delimiters in a compacted record is collapsed to a single delimiter
(`"\x7b3700\x7dB****"` becomes `"\x7b3700\x7dB*"`); a record with no trailing
delimiter is unchanged. -/
def stripDelimiters (s : List Char) : List Char :=
  let t := (s.reverse.dropWhile (fun c => c = '*')).reverse
  if t = s then s else t ++ ['*']

/-- Error kinds of the wire core (names follow the Go error constructors). -/
inductive WireErr where
  | tagMinLength (required actual : Nat)
  | tagMaxLength
  | tagWrongLength (required actual : Nat)
  | fieldRequired (field : String)
  | invalidProperty (field : String)
  | fieldInclusion (field : String)
  | nonAlphanumeric (field : String)
  | badEnum (field : String)
  | validTagForType
  | invalidTag
  deriving DecidableEq

/-- Modelled from the spec and tests: 6-character tag type codes
(`"\x7b3700\x7d"` for Charges is pinned by the tests, `"\x7b1510\x7d"` for
TypeSubType by the generated client; the others follow the same numbering). -/
def TagSenderSupplied : List Char := cs "{1500}"

/-- Modelled from the spec: TypeSubType tag code. -/
def TagTypeSubType : List Char := cs "{1510}"

/-- Modelled from the spec: InputMessageAccountabilityData tag code. -/
def TagInputMessageAccountabilityData : List Char := cs "{1520}"

/-- Modelled from the spec: Amount tag code. -/
def TagAmount : List Char := cs "{2000}"

/-- Modelled from the spec: BusinessFunctionCode tag code. -/
def TagBusinessFunctionCode : List Char := cs "{3600}"

/-- Modelled from the spec: LocalInstrument tag code. -/
def TagLocalInstrument : List Char := cs "{3610}"

/-- Charges tag code, pinned by the tests. -/
def TagCharges : List Char := cs "{3700}"

/-- Modelled from the spec: Originator tag code. -/
def TagOriginator : List Char := cs "{5000}"

/-- Modelled from the spec: FIPaymentMethodToBeneficiary tag code. -/
def TagFIPaymentMethodToBeneficiary : List Char := cs "{6420}"

/-- The local instrument code that licenses a proprietary code, attested by
the source (`ProprietaryLocalInstrumentCode`, compared against field value
`"PROP"` per the source doc comment). -/
def ProprietaryLocalInstrumentCode : List Char := cs "PROP"

/-- Modelled from the spec: the enumerated local-instrument code list (the
spec names the enumeration without listing it; `"PROP"` is attested by the
source). -/
def localInstrumentCodes : List (List Char) :=
  [cs "ANSI", cs "COVS", cs "GXML", cs "IXML", cs "NARR", cs "PROP",
   cs "RMTS", cs "RRMT", cs "S820", cs "SWIF", cs "UEDI"]

/-- Modelled from the spec: the enumerated identification-code list. -/
def identificationCodes : List (List Char) :=
  [cs "1", cs "2", cs "3", cs "4", cs "5", cs "9",
   cs "B", cs "C", cs "D", cs "F", cs "T", cs "U"]

/-- The payment-method constant, attested by the source default
(`NewFIPaymentMethodToBeneficiary` sets `"CHECK"`). -/
def PaymentMethodCHECK : List Char := cs "CHECK"

/-- Modelled from the spec: the alphanumeric validator accepts a printable
ASCII subset; the delimiter character is excluded since it terminates
variable-length fields. -/
def isAlphanumeric (v : List Char) : Bool :=
  v.all (fun c => 0x20 ≤ c.toNat && c.toNat ≤ 0x7E && c ≠ '*')

/-- Modelled from the spec: enumeration membership for local instrument codes. -/
def isLocalInstrumentCode (v : List Char) : Bool := decide (v ∈ localInstrumentCodes)

/-- Modelled from the spec: enumeration membership for identification codes. -/
def isIdentificationCode (v : List Char) : Bool := decide (v ∈ identificationCodes)

/-- Concatenation of compact-encoded variable fields (each value followed by
one delimiter), used to reason about serialization. -/
def emitCompact : List (List Char) → List Char
  | [] => []
  | v :: vs => v ++ '*' :: emitCompact vs

/-- Concatenation of legacy (space-padded) encoded variable fields. -/
def padConcat : List (List Char) → List Nat → List Char
  | v :: vs, w :: ws => alphaField v w ++ padConcat vs ws
  | _, _ => []

/-- Drop the trailing empty values of a field-value list. -/
def dropTrailingEmpty (vs : List (List Char)) : List (List Char) :=
  (vs.reverse.dropWhile (fun v => v = [])).reverse

/-- Sequential decoding of a list of variable fields, mirroring the cursor
advance of the tag decoders. -/
def parseSeq : List Nat → List Char → List (List Char) × Nat
  | [], _ => ([], 0)
  | w :: ws, r =>
    let p := parseVariableStringField r w
    let q := parseSeq ws (r.drop p.2)
    (p.1 :: q.1, p.2 + q.2)

/-- LocalInstrument tag (source `localInstrument.go`). -/
structure LocalInstrument where
  tag : List Char
  LocalInstrumentCode : List Char
  ProprietaryCode : List Char
  deriving DecidableEq

/-- The Go zero value `&LocalInstrument\x7b\x7d` used by the reader helper. -/
def zeroLocalInstrument : LocalInstrument := ⟨[], [], []⟩

/-- `NewLocalInstrument` from the source. -/
def NewLocalInstrument : LocalInstrument := ⟨TagLocalInstrument, [], []⟩

/-- `LocalInstrument.Parse` from the source: minimum-length guard, 6-character
prefix, two variable fields of widths 4 and 35, exact length accounting.  The
receiver is threaded explicitly: the Go method mutates fields in place and may
return an error after some fields were already assigned. -/
def LocalInstrument.Parse (li : LocalInstrument) (record : List Char) :
    LocalInstrument × Option WireErr :=
  if record.length < 6 then (li, some (.tagMinLength 6 record.length))
  else
    let li := { li with tag := record.take 6 }
    let p1 := parseVariableStringField (record.drop 6) 4
    let li := { li with LocalInstrumentCode := p1.1 }
    let len1 := 6 + p1.2
    let p2 := parseVariableStringField (record.drop len1) 35
    let li := { li with ProprietaryCode := p2.1 }
    let len2 := len1 + p2.2
    if record.length ≠ len2 then (li, some .tagMaxLength) else (li, none)

/-- `LocalInstrument.String` from the source; the variadic options are the
spec's explicit compact flag. -/
def LocalInstrument.String (li : LocalInstrument) (compact : Bool) : List Char :=
  let buf := li.tag ++ alphaVariableField li.LocalInstrumentCode 4 compact
      ++ alphaVariableField li.ProprietaryCode 35 compact
  if compact then stripDelimiters buf else buf

/-- `LocalInstrument.fieldInclusion` from the source: a proprietary code is
only allowed when the local instrument code is PROP. -/
def LocalInstrument.fieldInclusion (li : LocalInstrument) : Option WireErr :=
  if li.LocalInstrumentCode ≠ ProprietaryLocalInstrumentCode ∧ li.ProprietaryCode ≠ [] then
    some (.invalidProperty "ProprietaryCode")
  else none

/-- `LocalInstrument.Validate` from the source: field inclusion, tag check,
enumerated code, alphanumeric proprietary code, first failure wins. -/
def LocalInstrument.Validate (li : LocalInstrument) : Option WireErr :=
  match li.fieldInclusion with
  | some e => some e
  | none =>
    if li.tag ≠ TagLocalInstrument then some .validTagForType
    else if ¬ isLocalInstrumentCode li.LocalInstrumentCode then
      some (.badEnum "LocalInstrumentCode")
    else if ¬ isAlphanumeric li.ProprietaryCode then
      some (.nonAlphanumeric "ProprietaryCode")
    else none

example : (LocalInstrument.Parse zeroLocalInstrument (cs "{3610}ANSI")).2 = none := by decide

example : LocalInstrument.Parse zeroLocalInstrument (cs "{3610}ANSI**X") =
    (⟨cs "{3610}", cs "ANSI", []⟩, some .tagMaxLength) := by decide

example : (LocalInstrument.Validate ⟨TagLocalInstrument, cs "ANSI", []⟩) = none := by decide

/-- Address sub-structure of `Personal` (source). -/
structure Address where
  AddressLineOne : List Char
  AddressLineTwo : List Char
  AddressLineThree : List Char
  deriving DecidableEq

/-- Personal sub-structure of `Originator` (source). -/
structure Personal where
  IdentificationCode : List Char
  Identifier : List Char
  Name : List Char
  Address : Address
  deriving DecidableEq

/-- Originator tag (source `unnamed/part_000`). -/
structure Originator where
  tag : List Char
  Personal : Personal
  deriving DecidableEq

/-- The Go zero value `&Originator\x7b\x7d` used by the reader helper. -/
def zeroOriginator : Originator := ⟨[], ⟨[], [], [], ⟨[], [], []⟩⟩⟩

/-- `Originator.Parse` from the source: minimum length 9, 6-character prefix,
a 1-character fixed identification code, then five variable fields of widths
34, 35, 35, 35, 35, exact length accounting. -/
def Originator.Parse (o : Originator) (record : List Char) :
    Originator × Option WireErr :=
  if record.length < 9 then (o, some (.tagMinLength 9 record.length))
  else
    let o := { o with tag := record.take 6 }
    let o := { o with Personal.IdentificationCode :=
        parseStringField ((record.drop 6).take 1) }
    let len0 := 7
    let p1 := parseVariableStringField (record.drop len0) 34
    let o := { o with Personal.Identifier := p1.1 }
    let len1 := len0 + p1.2
    let p2 := parseVariableStringField (record.drop len1) 35
    let o := { o with Personal.Name := p2.1 }
    let len2 := len1 + p2.2
    let p3 := parseVariableStringField (record.drop len2) 35
    let o := { o with Personal.Address.AddressLineOne := p3.1 }
    let len3 := len2 + p3.2
    let p4 := parseVariableStringField (record.drop len3) 35
    let o := { o with Personal.Address.AddressLineTwo := p4.1 }
    let len4 := len3 + p4.2
    let p5 := parseVariableStringField (record.drop len4) 35
    let o := { o with Personal.Address.AddressLineThree := p5.1 }
    let len5 := len4 + p5.2
    if record.length ≠ len5 then (o, some .tagMaxLength) else (o, none)

/-- `Originator.String` from the source. -/
def Originator.String (o : Originator) (compact : Bool) : List Char :=
  let buf := o.tag ++ alphaField o.Personal.IdentificationCode 1
      ++ alphaVariableField o.Personal.Identifier 34 compact
      ++ alphaVariableField o.Personal.Name 35 compact
      ++ alphaVariableField o.Personal.Address.AddressLineOne 35 compact
      ++ alphaVariableField o.Personal.Address.AddressLineTwo 35 compact
      ++ alphaVariableField o.Personal.Address.AddressLineThree 35 compact
  if compact then stripDelimiters buf else buf

/-- `Originator.fieldInclusion` from the source: identification code and
identifier are both present or both absent. -/
def Originator.fieldInclusion (o : Originator) : Option WireErr :=
  if o.Personal.IdentificationCode ≠ [] ∧ o.Personal.Identifier = [] then
    some (.fieldRequired "Identifier")
  else if o.Personal.IdentificationCode = [] ∧ o.Personal.Identifier ≠ [] then
    some (.fieldRequired "IdentificationCode")
  else none

/-- `Originator.Validate` from the source. -/
def Originator.Validate (o : Originator) : Option WireErr :=
  match o.fieldInclusion with
  | some e => some e
  | none =>
    if o.tag ≠ TagOriginator then some .validTagForType
    else if ¬ isIdentificationCode o.Personal.IdentificationCode then
      some (.badEnum "IdentificationCode")
    else if ¬ isAlphanumeric o.Personal.Identifier then
      some (.nonAlphanumeric "Identifier")
    else if ¬ isAlphanumeric o.Personal.Name then
      some (.nonAlphanumeric "Name")
    else if ¬ isAlphanumeric o.Personal.Address.AddressLineOne then
      some (.nonAlphanumeric "AddressLineOne")
    else if ¬ isAlphanumeric o.Personal.Address.AddressLineTwo then
      some (.nonAlphanumeric "AddressLineTwo")
    else if ¬ isAlphanumeric o.Personal.Address.AddressLineThree then
      some (.nonAlphanumeric "AddressLineThree")
    else none

/-- FIPaymentMethodToBeneficiary tag (source `unnamed/part_000`). -/
structure FIPaymentMethodToBeneficiary where
  tag : List Char
  PaymentMethod : List Char
  AdditionalInformation : List Char
  deriving DecidableEq

/-- The Go zero value used by the reader helper. -/
def zeroFIPaymentMethodToBeneficiary : FIPaymentMethodToBeneficiary := ⟨[], [], []⟩

/-- `FIPaymentMethodToBeneficiary.Parse` from the source: minimum length 11,
prefix, 5-character fixed payment method, one variable field of width 30,
exact length accounting. -/
def FIPaymentMethodToBeneficiary.Parse (pm : FIPaymentMethodToBeneficiary)
    (record : List Char) : FIPaymentMethodToBeneficiary × Option WireErr :=
  if record.length < 11 then (pm, some (.tagMinLength 11 record.length))
  else
    let pm := { pm with tag := record.take 6 }
    let pm := { pm with PaymentMethod := parseStringField ((record.drop 6).take 5) }
    let len0 := 11
    let p1 := parseVariableStringField (record.drop len0) 30
    let pm := { pm with AdditionalInformation := p1.1 }
    let len1 := len0 + p1.2
    if record.length ≠ len1 then (pm, some .tagMaxLength) else (pm, none)

/-- `FIPaymentMethodToBeneficiary.String` from the source; note the source
never strips delimiters for this tag. -/
def FIPaymentMethodToBeneficiary.String (pm : FIPaymentMethodToBeneficiary)
    (compact : Bool) : List Char :=
  pm.tag ++ alphaField pm.PaymentMethod 5
    ++ alphaVariableField pm.AdditionalInformation 30 compact

/-- `FIPaymentMethodToBeneficiary.fieldInclusion` from the source: the payment
method must be the CHECK constant. -/
def FIPaymentMethodToBeneficiary.fieldInclusion (pm : FIPaymentMethodToBeneficiary) :
    Option WireErr :=
  if pm.PaymentMethod ≠ PaymentMethodCHECK then some (.fieldInclusion "PaymentMethod")
  else none

/-- `FIPaymentMethodToBeneficiary.Validate` from the source. -/
def FIPaymentMethodToBeneficiary.Validate (pm : FIPaymentMethodToBeneficiary) :
    Option WireErr :=
  match pm.fieldInclusion with
  | some e => some e
  | none =>
    if pm.tag ≠ TagFIPaymentMethodToBeneficiary then some .validTagForType
    else if ¬ isAlphanumeric pm.AdditionalInformation then
      some (.nonAlphanumeric "AdditionalInformation")
    else none

/-- Charges tag.  Modelled from the spec and the pinned tests: the type is not
in the provided source tree; the tests fix a minimum length of 7, a 1-character
fixed charge-details field and four variable sender-charges fields of width 15
each (total legacy width 67), and exact length accounting. -/
structure Charges where
  tag : List Char
  ChargeDetails : List Char
  SendersChargesOne : List Char
  SendersChargesTwo : List Char
  SendersChargesThree : List Char
  SendersChargesFour : List Char
  deriving DecidableEq

/-- The Go zero value used by the reader helper. -/
def zeroCharges : Charges := ⟨[], [], [], [], [], []⟩

/-- Modelled from the spec and the pinned tests: `Charges.Parse`. -/
def Charges.Parse (c : Charges) (record : List Char) : Charges × Option WireErr :=
  if record.length < 7 then (c, some (.tagMinLength 7 record.length))
  else
    let c := { c with tag := record.take 6 }
    let c := { c with ChargeDetails := parseStringField ((record.drop 6).take 1) }
    let len0 := 7
    let p1 := parseVariableStringField (record.drop len0) 15
    let c := { c with SendersChargesOne := p1.1 }
    let len1 := len0 + p1.2
    let p2 := parseVariableStringField (record.drop len1) 15
    let c := { c with SendersChargesTwo := p2.1 }
    let len2 := len1 + p2.2
    let p3 := parseVariableStringField (record.drop len2) 15
    let c := { c with SendersChargesThree := p3.1 }
    let len3 := len2 + p3.2
    let p4 := parseVariableStringField (record.drop len3) 15
    let c := { c with SendersChargesFour := p4.1 }
    let len4 := len3 + p4.2
    if record.length ≠ len4 then (c, some .tagMaxLength) else (c, none)

/-- Modelled from the spec and the pinned tests: `Charges.String`. -/
def Charges.String (c : Charges) (compact : Bool) : List Char :=
  let buf := c.tag ++ alphaField c.ChargeDetails 1
      ++ alphaVariableField c.SendersChargesOne 15 compact
      ++ alphaVariableField c.SendersChargesTwo 15 compact
      ++ alphaVariableField c.SendersChargesThree 15 compact
      ++ alphaVariableField c.SendersChargesFour 15 compact
  if compact then stripDelimiters buf else buf

/-- Modelled from the spec: `Charges.Validate` (enumerated charge details,
alphanumeric charges; only the error-free path matters for the claims). -/
def Charges.Validate (c : Charges) : Option WireErr :=
  if c.tag ≠ TagCharges then some .validTagForType
  else if ¬ (c.ChargeDetails = cs "B" ∨ c.ChargeDetails = cs "S") then
    some (.badEnum "ChargeDetails")
  else if ¬ isAlphanumeric c.SendersChargesOne then
    some (.nonAlphanumeric "SendersChargesOne")
  else if ¬ isAlphanumeric c.SendersChargesTwo then
    some (.nonAlphanumeric "SendersChargesTwo")
  else if ¬ isAlphanumeric c.SendersChargesThree then
    some (.nonAlphanumeric "SendersChargesThree")
  else if ¬ isAlphanumeric c.SendersChargesFour then
    some (.nonAlphanumeric "SendersChargesFour")
  else none

example : Charges.Parse zeroCharges (cs "{3700}") = (zeroCharges, some (.tagMinLength 7 6)) := by
  decide

example : Charges.Parse zeroCharges (cs "{3700}B*") =
    (⟨cs "{3700}", cs "B", [], [], [], []⟩, none) := by decide

example : (Charges.Parse zeroCharges (cs "{3700}B*****")).2 = some .tagMaxLength := by decide

example : Charges.String ⟨cs "{3700}", cs "B", [], [], [], []⟩ true = cs "{3700}B*" := by decide

example : Charges.String ⟨cs "{3700}", cs "B", [], [], [], []⟩ false =
    cs "{3700}B                                                            " := by decide

/-- Fixed-only SenderSupplied tag.  Modelled from the spec: the reader's exact
length-18 pre-check is in the source; the tag's own fields are not needed by
any claim, so the decode stores the raw record. -/
structure SenderSupplied where
  raw : List Char
  deriving DecidableEq

/-- Fixed-only TypeSubType tag.  Modelled from the spec, as `SenderSupplied`. -/
structure TypeSubType where
  raw : List Char
  deriving DecidableEq

/-- Fixed-only InputMessageAccountabilityData tag.  Modelled from the spec, as
`SenderSupplied`. -/
structure InputMessageAccountabilityData where
  raw : List Char
  deriving DecidableEq

/-- Fixed-only Amount tag.  Modelled from the spec, as `SenderSupplied`. -/
structure Amount where
  raw : List Char
  deriving DecidableEq

/-- Fixed-only BusinessFunctionCode tag.  Modelled from the spec, as
`SenderSupplied`. -/
structure BusinessFunctionCode where
  raw : List Char
  deriving DecidableEq

/-- A reader-level error entry: `base.ParseError` wraps a line number, the
current tag name and the underlying error; the fixed-length pre-checks return
the accumulated `base.ErrorList` itself as an error value, which `Read` then
appends as one more entry, so an entry can also be a list snapshot. -/
inductive RErr where
  | raw (err : WireErr)
  | parse (line : Nat) (record : String) (err : WireErr)
  | errList (es : List RErr)

/-- The message aggregate (`FEDWireMessage`), restricted to the tag variants
embedded here; each setter overwrites its field. -/
structure FEDWireMessage where
  senderSupplied : Option SenderSupplied := none
  typeSubType : Option TypeSubType := none
  inputMessageAccountabilityData : Option InputMessageAccountabilityData := none
  amount : Option Amount := none
  businessFunctionCode : Option BusinessFunctionCode := none
  localInstrument : Option LocalInstrument := none
  charges : Option Charges := none
  originator : Option Originator := none
  fiPaymentMethodToBeneficiary : Option FIPaymentMethodToBeneficiary := none
  deriving DecidableEq

/-- The empty aggregate (`NewFEDWireMessage`). -/
def emptyFWM : FEDWireMessage := {}

/-- `FEDWireMessage.SetSenderSupplied` (overwrite semantics). -/
def FEDWireMessage.SetSenderSupplied (fwm : FEDWireMessage) (t : SenderSupplied) :
    FEDWireMessage := { fwm with senderSupplied := some t }

/-- `FEDWireMessage.SetTypeSubType` (overwrite semantics). -/
def FEDWireMessage.SetTypeSubType (fwm : FEDWireMessage) (t : TypeSubType) :
    FEDWireMessage := { fwm with typeSubType := some t }

/-- `FEDWireMessage.SetInputMessageAccountabilityData` (overwrite semantics). -/
def FEDWireMessage.SetInputMessageAccountabilityData (fwm : FEDWireMessage)
    (t : InputMessageAccountabilityData) : FEDWireMessage :=
  { fwm with inputMessageAccountabilityData := some t }

/-- `FEDWireMessage.SetAmount` (overwrite semantics). -/
def FEDWireMessage.SetAmount (fwm : FEDWireMessage) (t : Amount) : FEDWireMessage :=
  { fwm with amount := some t }

/-- `FEDWireMessage.SetBusinessFunctionCode` (overwrite semantics). -/
def FEDWireMessage.SetBusinessFunctionCode (fwm : FEDWireMessage)
    (t : BusinessFunctionCode) : FEDWireMessage :=
  { fwm with businessFunctionCode := some t }

/-- `FEDWireMessage.SetLocalInstrument` (overwrite semantics). -/
def FEDWireMessage.SetLocalInstrument (fwm : FEDWireMessage) (t : LocalInstrument) :
    FEDWireMessage := { fwm with localInstrument := some t }

/-- `FEDWireMessage.SetCharges` (overwrite semantics). -/
def FEDWireMessage.SetCharges (fwm : FEDWireMessage) (t : Charges) : FEDWireMessage :=
  { fwm with charges := some t }

/-- `FEDWireMessage.SetOriginator` (overwrite semantics). -/
def FEDWireMessage.SetOriginator (fwm : FEDWireMessage) (t : Originator) :
    FEDWireMessage := { fwm with originator := some t }

/-- `FEDWireMessage.SetFIPaymentMethodToBeneficiary` (overwrite semantics). -/
def FEDWireMessage.SetFIPaymentMethodToBeneficiary (fwm : FEDWireMessage)
    (t : FIPaymentMethodToBeneficiary) : FEDWireMessage :=
  { fwm with fiPaymentMethodToBeneficiary := some t }

/-- `Reader` state: output file, in-progress aggregate, error list, current
line number and tag name (source `Reader` struct). -/
structure RState where
  file : List FEDWireMessage
  current : FEDWireMessage
  errors : List RErr
  lineNum : Nat
  tagName : String

/-- The state of a fresh reader (`NewReader`). -/
def initialRState : RState := ⟨[], emptyFWM, [], 0, ""⟩

/-- `Reader.parseError` from the source: wrap an error with the current line
number and tag name (errors reaching it here are never already wrapped). -/
def wrapParseError (st : RState) (e : WireErr) : RErr :=
  .parse st.lineNum st.tagName e

/-- `Reader.addCurrentFEDWireMessage` from the source: it ignores its argument
and only resets the in-progress aggregate; it never appends to the file. -/
def addCurrentFEDWireMessage (st : RState) (_fwm : FEDWireMessage) : RState :=
  { st with current := emptyFWM }

/-- `Reader.parseSenderSupplied` from the source: on a length other than 18
the wrapped wrong-length error is added to the reader's error list and the
accumulated list itself is returned as the error; otherwise the tag is decoded
(modelled as storing the raw record), validated (modelled as always valid) and
stored. -/
def parseSenderSuppliedM (st : RState) (line : List Char) : RState × Option RErr :=
  let st := { st with tagName := "SenderSupplied" }
  if line.length ≠ 18 then
    let st := { st with errors := st.errors ++ [wrapParseError st (.tagWrongLength 18 line.length)] }
    (st, some (.errList st.errors))
  else
    ({ st with current := st.current.SetSenderSupplied ⟨line⟩ }, none)

/-- `Reader.parseTypeSubType` from the source (exact length 10). -/
def parseTypeSubTypeM (st : RState) (line : List Char) : RState × Option RErr :=
  let st := { st with tagName := "TypeSubType" }
  if line.length ≠ 10 then
    let st := { st with errors := st.errors ++ [wrapParseError st (.tagWrongLength 10 line.length)] }
    (st, some (.errList st.errors))
  else
    ({ st with current := st.current.SetTypeSubType ⟨line⟩ }, none)

/-- `Reader.parseInputMessageAccountabilityData` from the source: the length
check requires exactly 28 characters but the error constructed reports a
required length of 22. -/
def parseInputMessageAccountabilityDataM (st : RState) (line : List Char) :
    RState × Option RErr :=
  let st := { st with tagName := "InputMessageAccountabilityData" }
  if line.length ≠ 28 then
    let st := { st with errors := st.errors ++ [wrapParseError st (.tagWrongLength 22 line.length)] }
    (st, some (.errList st.errors))
  else
    ({ st with current := st.current.SetInputMessageAccountabilityData ⟨line⟩ }, none)

/-- `Reader.parseAmount` from the source (exact length 18). -/
def parseAmountM (st : RState) (line : List Char) : RState × Option RErr :=
  let st := { st with tagName := "Amount" }
  if line.length ≠ 18 then
    let st := { st with errors := st.errors ++ [wrapParseError st (.tagWrongLength 18 line.length)] }
    (st, some (.errList st.errors))
  else
    ({ st with current := st.current.SetAmount ⟨line⟩ }, none)

/-- `Reader.parseBusinessFunctionCode` from the source (exact length 12). -/
def parseBusinessFunctionCodeM (st : RState) (line : List Char) : RState × Option RErr :=
  let st := { st with tagName := "BusinessFunctionCode" }
  if line.length ≠ 12 then
    let st := { st with errors := st.errors ++ [wrapParseError st (.tagWrongLength 12 line.length)] }
    (st, some (.errList st.errors))
  else
    ({ st with current := st.current.SetBusinessFunctionCode ⟨line⟩ }, none)

/-- `Reader.parseLocalInstrument` from the source: the decode error of
`Parse` is discarded; only a `Validate` failure is reported, and a validated
tag is stored unconditionally, overwriting any prior occurrence. -/
def parseLocalInstrumentM (st : RState) (line : List Char) : RState × Option RErr :=
  let st := { st with tagName := "LocalInstrument" }
  let li := (LocalInstrument.Parse zeroLocalInstrument line).1
  match li.Validate with
  | some e => (st, some (wrapParseError st e))
  | none => ({ st with current := st.current.SetLocalInstrument li }, none)

/-- `Reader.parseCharges` from the source, over the modelled `Charges`. -/
def parseChargesM (st : RState) (line : List Char) : RState × Option RErr :=
  let st := { st with tagName := "Charges" }
  let c := (Charges.Parse zeroCharges line).1
  match c.Validate with
  | some e => (st, some (wrapParseError st e))
  | none => ({ st with current := st.current.SetCharges c }, none)

/-- `Reader.parseOriginator` from the source. -/
def parseOriginatorM (st : RState) (line : List Char) : RState × Option RErr :=
  let st := { st with tagName := "Originator" }
  let o := (Originator.Parse zeroOriginator line).1
  match o.Validate with
  | some e => (st, some (wrapParseError st e))
  | none => ({ st with current := st.current.SetOriginator o }, none)

/-- `Reader.parseFIPaymentMethodToBeneficiary` from the source. -/
def parseFIPaymentMethodToBeneficiaryM (st : RState) (line : List Char) :
    RState × Option RErr :=
  let st := { st with tagName := "FIPaymentMethodToBeneficiary" }
  let pm := (FIPaymentMethodToBeneficiary.Parse zeroFIPaymentMethodToBeneficiary line).1
  match pm.Validate with
  | some e => (st, some (wrapParseError st e))
  | none => ({ st with current := st.current.SetFIPaymentMethodToBeneficiary pm }, none)

/-- `Reader.parseLine` from the source, restricted to the embedded tag
variants (the remaining source cases route to per-tag helpers of the same two
shapes and are not needed by any claim).  The source slices `r.line[:6]`
without a length guard; on a line shorter than 6 characters that slice is out
of bounds (a Go panic), modelled as `none`. -/
def parseLineM (st : RState) (line : List Char) : Option (RState × Option RErr) :=
  if line.length < 6 then none
  else
    let tag6 := line.take 6
    if tag6 = TagSenderSupplied then some (parseSenderSuppliedM st line)
    else if tag6 = TagTypeSubType then some (parseTypeSubTypeM st line)
    else if tag6 = TagInputMessageAccountabilityData then
      some (parseInputMessageAccountabilityDataM st line)
    else if tag6 = TagAmount then some (parseAmountM st line)
    else if tag6 = TagBusinessFunctionCode then some (parseBusinessFunctionCodeM st line)
    else if tag6 = TagLocalInstrument then some (parseLocalInstrumentM st line)
    else if tag6 = TagCharges then some (parseChargesM st line)
    else if tag6 = TagOriginator then some (parseOriginatorM st line)
    else if tag6 = TagFIPaymentMethodToBeneficiary then
      some (parseFIPaymentMethodToBeneficiaryM st line)
    else some (st, some (.raw .invalidTag))

/-- The scan loop of `Reader.Read`: each line's error (if any) is appended to
the running list and scanning continues; a panic aborts everything. -/
def readLoop (st : RState) : List (List Char) → Option RState
  | [] => some st
  | l :: ls =>
    let st := { st with lineNum := st.lineNum + 1 }
    match parseLineM st l with
    | none => none
    | some (st', some e) => readLoop { st' with errors := st'.errors ++ [e] } ls
    | some (st', none) => readLoop st' ls

/-- `Reader.Read` from the source: run the scan loop from a fresh reader, then
append the in-progress aggregate to the file exactly once and return the file
together with the accumulated error list (empty list = no error). -/
def ReadModel (lines : List (List Char)) : Option (List FEDWireMessage × List RErr) :=
  match readLoop initialRState lines with
  | none => none
  | some st => some (st.file ++ [st.current], st.errors)

example : ReadModel [cs "{3610}ANSI", cs "{6420}CHECK*"] =
    some ([{ localInstrument := some ⟨cs "{3610}", cs "ANSI", []⟩,
             fiPaymentMethodToBeneficiary := some ⟨cs "{6420}", cs "CHECK", []⟩ }], []) := by
  rfl

example : ReadModel [[]] = none := by rfl

example : (parseInputMessageAccountabilityDataM initialRState (cs "{1520}ABCDEFGHIJKLMNOP")).2 =
    some (.errList [.parse 0 "InputMessageAccountabilityData" (.tagWrongLength 22 22)]) := by
  rfl

theorem noStar_cons {c : Char} {v : List Char} :
    noStar (c :: v) = true ↔ c ≠ '*' ∧ noStar v = true := by
  simp [noStar]

theorem noStar_append {u v : List Char} :
    noStar (u ++ v) = true ↔ noStar u = true ∧ noStar v = true := by
  simp [noStar]

theorem noStar_replicate_space {k : Nat} : noStar (List.replicate k ' ') = true := by
  simp [noStar]

theorem findDelim_append_star {v rest : List Char} (h : noStar v = true) :
    findDelim (v ++ '*' :: rest) = some v.length := by
  induction v with
  | nil => simp [findDelim]
  | cons c cv ih =>
    rcases noStar_cons.mp h with ⟨hc, hcv⟩
    simp [findDelim, hc, ih hcv]

theorem findDelim_none {r : List Char} (h : noStar r = true) : findDelim r = none := by
  induction r with
  | nil => rfl
  | cons c cv ih =>
    rcases noStar_cons.mp h with ⟨hc, hcv⟩
    simp [findDelim, hc, ih hcv]

theorem dropWhile_replicate_append {p : Char → Bool} {c : Char} (hc : p c = true)
    (n : Nat) (l : List Char) :
    (List.replicate n c ++ l).dropWhile p = l.dropWhile p := by
  induction n with
  | zero => simp
  | succ k ih => simp [List.replicate_succ, List.dropWhile_cons, hc, ih]

theorem dropWhile_spaces_reverse {v : List Char} (h : noTrailSpace v = true) :
    v.reverse.dropWhile (fun c => c = ' ') = v.reverse := by
  cases hv : v.reverse with
  | nil => rfl
  | cons c t =>
    have hlast : v.getLast? = some c := by
      rw [← List.head?_reverse, hv]; rfl
    have hc : c ≠ ' ' := by
      unfold noTrailSpace at h
      rw [hlast] at h
      simpa using h
    simp [List.dropWhile_cons, hc]

theorem trim_append_replicate {v : List Char} {k : Nat} (h : noTrailSpace v = true) :
    trimRightSpaces (v ++ List.replicate k ' ') = v := by
  unfold trimRightSpaces
  rw [List.reverse_append, List.reverse_replicate,
    dropWhile_replicate_append (by simp) k v.reverse,
    dropWhile_spaces_reverse h, List.reverse_reverse]

theorem trim_self {v : List Char} (h : noTrailSpace v = true) : trimRightSpaces v = v := by
  have : trimRightSpaces (v ++ List.replicate 0 ' ') = v := trim_append_replicate h
  simpa using this

theorem alphaField_length {v : List Char} {w : Nat} (h : v.length ≤ w) :
    (alphaField v w).length = w := by
  simp [alphaField]
  omega

theorem noStar_alphaField {v : List Char} {w : Nat} (h : noStar v = true) :
    noStar (alphaField v w) = true := by
  rw [alphaField, noStar_append]
  exact ⟨h, noStar_replicate_space⟩

theorem pvs_compact {v rest : List Char} {w : Nat} (hs : noStar v = true)
    (ht : noTrailSpace v = true) (hw : v.length ≤ w) :
    parseVariableStringField (v ++ '*' :: rest) w = (v, v.length + 1) := by
  unfold parseVariableStringField
  rw [findDelim_append_star hs]
  rcases Nat.lt_or_ge v.length w with hlt | hge
  · simp [hlt, List.take_left]
  · have heq : v.length = w := Nat.le_antisymm hw hge
    have h1 : ¬ v.length < w := by omega
    have h2 : (v ++ '*' :: rest).take w = v := by
      rw [← heq]; exact List.take_left v ('*' :: rest)
    simp [h1, heq, h2, trim_self ht]

theorem pvs_nil {w : Nat} : parseVariableStringField [] w = ([], 0) := by
  simp [parseVariableStringField, findDelim, trimRightSpaces]

theorem pvs_legacy {v rest : List Char} {w : Nat} (hs : noStar v = true)
    (ht : noTrailSpace v = true) (hw : v.length ≤ w) (hr : noStar rest = true) :
    parseVariableStringField (alphaField v w ++ rest) w = (v, w) := by
  have hall : noStar (alphaField v w ++ rest) = true :=
    noStar_append.mpr ⟨noStar_alphaField hs, hr⟩
  unfold parseVariableStringField
  rw [findDelim_none hall]
  have hlen : (alphaField v w).length = w := alphaField_length hw
  have htake : (alphaField v w ++ rest).take w = alphaField v w := List.take_left' hlen
  have hmin : min w (alphaField v w ++ rest).length = w := by
    rw [List.length_append, hlen]
    omega
  rw [htake, hmin, alphaField, trim_append_replicate ht]

theorem drop_emit_one {v rest : List Char} {c : Char} :
    (v ++ c :: rest).drop (v.length + 1) = rest := by
  have h : v ++ c :: rest = (v ++ [c]) ++ rest := by simp
  rw [h]
  have hl : (v ++ [c]).length = v.length + 1 := by simp
  rw [← hl, List.drop_left]

theorem drop_pad {v rest : List Char} {w : Nat} (hw : v.length ≤ w) :
    (alphaField v w ++ rest).drop w = rest :=
  List.drop_left' (alphaField_length hw)

theorem emitCompact_append (us vs : List (List Char)) :
    emitCompact (us ++ vs) = emitCompact us ++ emitCompact vs := by
  induction us with
  | nil => rfl
  | cons u ut ih => simp [emitCompact, ih]

theorem emitCompact_replicate_nil (k : Nat) :
    emitCompact (List.replicate k ([] : List Char)) = List.replicate k '*' := by
  induction k with
  | zero => rfl
  | succ n ih => simp [List.replicate_succ, emitCompact, ih]

theorem parseSeq_emit : ∀ (ws : List Nat) (kept : List (List Char)),
    kept.length ≤ ws.length →
    (∀ p ∈ kept.zip ws, noStar p.1 = true ∧ noTrailSpace p.1 = true ∧ p.1.length ≤ p.2) →
    parseSeq ws (emitCompact kept) =
      (kept ++ List.replicate (ws.length - kept.length) [], (emitCompact kept).length)
  | [], kept, hlen, _ => by
    have : kept = [] := List.eq_nil_of_length_eq_zero (Nat.le_zero.mp hlen)
    subst this
    rfl
  | w :: ws, [], _, _ => by
    have ih := parseSeq_emit ws [] (by simp) (by simp)
    simp [emitCompact] at ih
    simp [parseSeq, emitCompact, pvs_nil, ih, List.replicate_succ]
  | w :: ws, v :: kept, hlen, hcond => by
    have hv := hcond (v, w) (by simp)
    have ih := parseSeq_emit ws kept (by simpa using hlen)
      (fun p hp => hcond p (by simp [hp]))
    simp only [emitCompact, parseSeq]
    rw [pvs_compact hv.1 hv.2.1 hv.2.2]
    simp only [drop_emit_one, ih]
    simp [List.length_append]
    omega

theorem noStar_padConcat : ∀ (vs : List (List Char)) (ws : List Nat),
    (∀ p ∈ vs.zip ws, noStar p.1 = true) → noStar (padConcat vs ws) = true
  | [], ws, _ => by cases ws <;> rfl
  | _ :: _, [], _ => rfl
  | v :: vs, w :: ws, h => by
    rw [padConcat, noStar_append]
    exact ⟨noStar_alphaField (h (v, w) (by simp)),
      noStar_padConcat vs ws (fun p hp => h p (by simp [hp]))⟩

theorem parseSeq_pad : ∀ (ws : List Nat) (vs : List (List Char)),
    vs.length = ws.length →
    (∀ p ∈ vs.zip ws, noStar p.1 = true ∧ noTrailSpace p.1 = true ∧ p.1.length ≤ p.2) →
    parseSeq ws (padConcat vs ws) = (vs, ws.sum)
  | [], vs, hlen, _ => by
    have : vs = [] := List.eq_nil_of_length_eq_zero (by simpa using hlen)
    subst this
    rfl
  | w :: ws, [], hlen, _ => by simp at hlen
  | w :: ws, v :: vs, hlen, hcond => by
    have hv := hcond (v, w) (by simp)
    have ih := parseSeq_pad ws vs (by simpa using hlen)
      (fun p hp => hcond p (by simp [hp]))
    have hrest : noStar (padConcat vs ws) = true :=
      noStar_padConcat vs ws (fun p hp => (hcond p (by simp [hp])).1)
    simp only [padConcat, parseSeq]
    rw [pvs_legacy hv.1 hv.2.1 hv.2.2 hrest, drop_pad hv.2.2, ih]
    simp [List.sum_cons]

theorem parseSeq_length : ∀ (ws : List Nat) (r : List Char),
    (parseSeq ws r).1.length = ws.length
  | [], _ => rfl
  | w :: ws, r => by simp [parseSeq, parseSeq_length ws]

theorem dropWhile_head_false {α : Type} {p : α → Bool} :
    ∀ {l : List α} {a : α} {t : List α}, l.dropWhile p = a :: t → p a = false
  | [], a, t, h => by simp at h
  | b :: l, a, t, h => by
    rw [List.dropWhile_cons] at h
    by_cases hb : p b
    · exact dropWhile_head_false (by simpa [hb] using h)
    · simp [hb] at h
      rw [← h.1]
      simpa using hb

theorem dropWhile_mem {α : Type} {p : α → Bool} {l : List α} {a : α}
    (h : a ∈ l.dropWhile p) : a ∈ l :=
  (List.dropWhile_sublist p).mem h

theorem dte_decomp (vs : List (List Char)) :
    vs = dropTrailingEmpty vs ++
      List.replicate (vs.length - (dropTrailingEmpty vs).length) ([] : List Char) := by
  unfold dropTrailingEmpty
  have htw : ∀ u ∈ vs.reverse.takeWhile (fun v => v = []), u = ([] : List Char) := by
    intro u hu
    have := List.mem_takeWhile_imp hu
    simpa using this
  have hrep : vs.reverse.takeWhile (fun v => v = []) =
      List.replicate (vs.reverse.takeWhile (fun v => v = [])).length ([] : List Char) :=
    List.eq_replicate_of_mem htw
  have hsplit := List.takeWhile_append_dropWhile (p := fun v => v = ([] : List Char))
    (l := vs.reverse)
  have hlen : (vs.reverse.dropWhile (fun v => v = [])).length ≤ vs.length := by
    calc (vs.reverse.dropWhile (fun v => v = [])).length
        ≤ vs.reverse.length := (List.dropWhile_sublist _).length_le
      _ = vs.length := List.length_reverse vs
  have hsum : (vs.reverse.takeWhile (fun v => v = [])).length +
      (vs.reverse.dropWhile (fun v => v = [])).length = vs.length := by
    rw [← List.length_append, hsplit, List.length_reverse]
  conv_lhs => rw [← List.reverse_reverse vs, ← hsplit]
  rw [List.reverse_append]
  congr 1
  rw [hrep, List.reverse_replicate]
  congr 1
  simp only [List.length_reverse]
  omega

theorem dte_last_ne_nil {vs : List (List Char)} (h : dropTrailingEmpty vs ≠ []) :
    ∃ kept₀ vj, dropTrailingEmpty vs = kept₀ ++ [vj] ∧ vj ≠ [] ∧ vj ∈ vs := by
  unfold dropTrailingEmpty at h ⊢
  cases hd : vs.reverse.dropWhile (fun v => v = []) with
  | nil => rw [hd] at h; simp at h
  | cons vj d₀ =>
    refine ⟨d₀.reverse, vj, ?_, ?_, ?_⟩
    · exact List.reverse_cons vj d₀
    · have := dropWhile_head_false hd
      simpa using this
    · have : vj ∈ vs.reverse.dropWhile (fun v => v = []) := by rw [hd]; simp
      have := dropWhile_mem this
      simpa using this

theorem last_reverse_head {v : List Char} {c : Char} {t : List Char}
    (h : v.reverse = c :: t) (hs : noStar v = true) : c ≠ '*' := by
  have hc : c ∈ v := by
    have : c ∈ v.reverse := by rw [h]; simp
    simpa using this
  unfold noStar at hs
  rw [List.all_eq_true] at hs
  have := hs c hc
  simpa using this

theorem stripDelimiters_eq (s : List Char) :
    stripDelimiters s =
      if (s.reverse.dropWhile (fun c => c = '*')).reverse = s then s
      else (s.reverse.dropWhile (fun c => c = '*')).reverse ++ ['*'] := rfl

theorem strip_emit (p : List Char) (vs : List (List Char))
    (hs : ∀ v ∈ vs, noStar v = true) (hne : dropTrailingEmpty vs ≠ []) :
    stripDelimiters (p ++ emitCompact vs) = p ++ emitCompact (dropTrailingEmpty vs) := by
  obtain ⟨kept₀, vj, hk, hvj, hmem⟩ := dte_last_ne_nil hne
  have hdec := dte_decomp vs
  set k := vs.length - (dropTrailingEmpty vs).length with hkdef
  have hemit : emitCompact vs =
      (emitCompact kept₀ ++ vj ++ ['*']) ++ List.replicate k '*' := by
    conv_lhs => rw [hdec, hk]
    rw [emitCompact_append, emitCompact_append, emitCompact_replicate_nil]
    simp [emitCompact]
  cases hvrev : vj.reverse with
  | nil => exact absurd (by simpa using hvrev) hvj
  | cons c t =>
    have hcstar : c ≠ '*' := last_reverse_head hvrev (hs vj hmem)
    have hrev : (p ++ emitCompact vs).reverse =
        List.replicate k '*' ++
          ('*' :: (vj.reverse ++ ((emitCompact kept₀).reverse ++ p.reverse))) := by
      rw [hemit]
      simp [List.reverse_append, List.reverse_replicate, List.append_assoc]
    have hdw : ((p ++ emitCompact vs).reverse).dropWhile (fun x => x = '*') =
        vj.reverse ++ ((emitCompact kept₀).reverse ++ p.reverse) := by
      rw [hrev, dropWhile_replicate_append (by simp) k, List.dropWhile_cons]
      rw [hvrev]
      simp [List.dropWhile_cons, hcstar]
    have hT : (((p ++ emitCompact vs).reverse).dropWhile (fun x => x = '*')).reverse =
        p ++ (emitCompact kept₀ ++ vj) := by
      rw [hdw]
      simp [List.reverse_append]
    have hlength : (p ++ (emitCompact kept₀ ++ vj)).length + (k + 1) =
        (p ++ emitCompact vs).length := by
      rw [hemit]
      simp
      omega
    have hneq : (((p ++ emitCompact vs).reverse).dropWhile (fun x => x = '*')).reverse ≠
        p ++ emitCompact vs := by
      rw [hT]
      intro hcontra
      have := congrArg List.length hcontra
      omega
    rw [stripDelimiters_eq, if_neg hneq, hT, hk, emitCompact_append]
    simp [emitCompact]

theorem isAlphanumeric_noStar {v : List Char} (h : isAlphanumeric v = true) :
    noStar v = true := by
  unfold isAlphanumeric at h
  unfold noStar
  rw [List.all_eq_true] at h ⊢
  intro c hc
  have := h c hc
  simp at this ⊢
  exact this.2

theorem alphaField_exact {v : List Char} {w : Nat} (h : v.length = w) :
    alphaField v w = v := by
  simp [alphaField, h]

theorem LIcode_facts {v : List Char} (h : isLocalInstrumentCode v = true) :
    v.length = 4 ∧ noStar v = true ∧ noTrailSpace v = true ∧ v ≠ [] := by
  have hm : v ∈ localInstrumentCodes := of_decide_eq_true h
  simp only [localInstrumentCodes, cs, List.mem_cons, List.not_mem_nil, or_false] at hm
  rcases hm with h | h | h | h | h | h | h | h | h | h | h <;> subst h <;> decide

theorem idCode_facts {v : List Char} (h : isIdentificationCode v = true) :
    v.length = 1 ∧ noStar v = true ∧ noTrailSpace v = true ∧ v ≠ [] := by
  have hm : v ∈ identificationCodes := of_decide_eq_true h
  simp only [identificationCodes, cs, List.mem_cons, List.not_mem_nil, or_false] at hm
  rcases hm with h | h | h | h | h | h | h | h | h | h | h | h <;> subst h <;> decide

theorem LI_validate_inv {li : LocalInstrument} (h : li.Validate = none) :
    (li.LocalInstrumentCode = ProprietaryLocalInstrumentCode ∨ li.ProprietaryCode = []) ∧
    li.tag = TagLocalInstrument ∧
    isLocalInstrumentCode li.LocalInstrumentCode = true ∧
    isAlphanumeric li.ProprietaryCode = true := by
  unfold LocalInstrument.Validate at h
  cases hfi : li.fieldInclusion with
  | some e => rw [hfi] at h; simp at h
  | none =>
    rw [hfi] at h
    have hincl : li.LocalInstrumentCode = ProprietaryLocalInstrumentCode ∨
        li.ProprietaryCode = [] := by
      unfold LocalInstrument.fieldInclusion at hfi
      by_cases h1 : li.LocalInstrumentCode ≠ ProprietaryLocalInstrumentCode ∧
          li.ProprietaryCode ≠ []
      · rw [if_pos h1] at hfi; simp at hfi
      · tauto
    have h1 : li.tag = TagLocalInstrument := by
      by_contra hc
      rw [if_pos hc] at h
      simp at h
    rw [if_neg (by simpa using h1)] at h
    have h2 : isLocalInstrumentCode li.LocalInstrumentCode = true := by
      by_contra hc
      rw [if_pos hc] at h
      simp at h
    rw [if_neg (by simpa using h2)] at h
    have h3 : isAlphanumeric li.ProprietaryCode = true := by
      by_contra hc
      rw [if_pos hc] at h
      simp at h
    exact ⟨hincl, h1, h2, h3⟩

theorem Orig_validate_inv {o : Originator} (h : o.Validate = none) :
    (o.Personal.IdentificationCode ≠ [] → o.Personal.Identifier ≠ []) ∧
    o.tag = TagOriginator ∧
    isIdentificationCode o.Personal.IdentificationCode = true ∧
    isAlphanumeric o.Personal.Identifier = true ∧
    isAlphanumeric o.Personal.Name = true ∧
    isAlphanumeric o.Personal.Address.AddressLineOne = true ∧
    isAlphanumeric o.Personal.Address.AddressLineTwo = true ∧
    isAlphanumeric o.Personal.Address.AddressLineThree = true := by
  unfold Originator.Validate at h
  cases hfi : o.fieldInclusion with
  | some e => rw [hfi] at h; simp at h
  | none =>
    rw [hfi] at h
    have himpl : o.Personal.IdentificationCode ≠ [] → o.Personal.Identifier ≠ [] := by
      intro hne hid
      unfold Originator.fieldInclusion at hfi
      rw [if_pos ⟨hne, hid⟩] at hfi
      simp at hfi
    have h1 : o.tag = TagOriginator := by
      by_contra hc
      rw [if_pos hc] at h
      simp at h
    rw [if_neg (by simpa using h1)] at h
    have h2 : isIdentificationCode o.Personal.IdentificationCode = true := by
      by_contra hc
      rw [if_pos hc] at h
      simp at h
    rw [if_neg (by simpa using h2)] at h
    have h3 : isAlphanumeric o.Personal.Identifier = true := by
      by_contra hc
      rw [if_pos hc] at h
      simp at h
    rw [if_neg (by simpa using h3)] at h
    have h4 : isAlphanumeric o.Personal.Name = true := by
      by_contra hc
      rw [if_pos hc] at h
      simp at h
    rw [if_neg (by simpa using h4)] at h
    have h5 : isAlphanumeric o.Personal.Address.AddressLineOne = true := by
      by_contra hc
      rw [if_pos hc] at h
      simp at h
    rw [if_neg (by simpa using h5)] at h
    have h6 : isAlphanumeric o.Personal.Address.AddressLineTwo = true := by
      by_contra hc
      rw [if_pos hc] at h
      simp at h
    rw [if_neg (by simpa using h6)] at h
    have h7 : isAlphanumeric o.Personal.Address.AddressLineThree = true := by
      by_contra hc
      rw [if_pos hc] at h
      simp at h
    exact ⟨himpl, h1, h2, h3, h4, h5, h6, h7⟩

theorem FIPM_validate_inv {pm : FIPaymentMethodToBeneficiary} (h : pm.Validate = none) :
    pm.PaymentMethod = PaymentMethodCHECK ∧
    pm.tag = TagFIPaymentMethodToBeneficiary ∧
    isAlphanumeric pm.AdditionalInformation = true := by
  unfold FIPaymentMethodToBeneficiary.Validate at h
  cases hfi : pm.fieldInclusion with
  | some e => rw [hfi] at h; simp at h
  | none =>
    rw [hfi] at h
    have h0 : pm.PaymentMethod = PaymentMethodCHECK := by
      by_contra hc
      unfold FIPaymentMethodToBeneficiary.fieldInclusion at hfi
      rw [if_pos hc] at hfi
      simp at hfi
    have h1 : pm.tag = TagFIPaymentMethodToBeneficiary := by
      by_contra hc
      rw [if_pos hc] at h
      simp at h
    rw [if_neg (by simpa using h1)] at h
    have h2 : isAlphanumeric pm.AdditionalInformation = true := by
      by_contra hc
      rw [if_pos hc] at h
      simp at h
    exact ⟨h0, h1, h2⟩

theorem LocalInstrument_Parse_append (li : LocalInstrument) {tag body v1 v2 : List Char}
    {n : Nat} (h6 : tag.length = 6)
    (hp : parseSeq [4, 35] body = ([v1, v2], n)) :
    LocalInstrument.Parse li (tag ++ body) =
      (⟨tag, v1, v2⟩, if body.length ≠ n then some .tagMaxLength else none) := by
  rcases hq1 : parseVariableStringField body 4 with ⟨w1, n1⟩
  rcases hq2 : parseVariableStringField (body.drop n1) 35 with ⟨w2, n2⟩
  have hps : w1 = v1 ∧ w2 = v2 ∧ n1 + n2 = n := by
    simp [parseSeq, hq1, hq2] at hp
    exact ⟨hp.1.1, hp.1.2, hp.2⟩
  obtain ⟨e1, e2, e3⟩ := hps
  have hlen : (tag ++ body).length = 6 + body.length := by simp [h6]
  have hmin : ¬ (tag ++ body).length < 6 := by omega
  have hd6 : (tag ++ body).drop 6 = body := List.drop_left' h6
  have ht6 : (tag ++ body).take 6 = tag := List.take_left' h6
  have hd2 : (tag ++ body).drop (6 + n1) = body.drop n1 := by
    rw [← h6]
    exact List.drop_append n1
  unfold LocalInstrument.Parse
  rw [if_neg hmin]
  simp only [hd6, ht6, hq1, hd2, hq2, hlen]
  subst e1 e2
  by_cases hbn : body.length = n
  · rw [if_neg (by omega), if_neg (by omega)]
  · rw [if_pos (by omega), if_pos (by omega)]

theorem Originator_Parse_append (o : Originator) {tag idc body v1 v2 v3 v4 v5 : List Char}
    {n : Nat} (h6 : tag.length = 6) (h1 : idc.length = 1) (hb : 2 ≤ body.length)
    (hp : parseSeq [34, 35, 35, 35, 35] body = ([v1, v2, v3, v4, v5], n)) :
    Originator.Parse o (tag ++ (idc ++ body)) =
      (⟨tag, ⟨parseStringField idc, v1, v2, ⟨v3, v4, v5⟩⟩⟩,
       if body.length ≠ n then some .tagMaxLength else none) := by
  rcases hq1 : parseVariableStringField body 34 with ⟨w1, n1⟩
  rcases hq2 : parseVariableStringField (body.drop n1) 35 with ⟨w2, n2⟩
  rcases hq3 : parseVariableStringField ((body.drop n1).drop n2) 35 with ⟨w3, n3⟩
  rcases hq4 : parseVariableStringField (((body.drop n1).drop n2).drop n3) 35 with ⟨w4, n4⟩
  rcases hq5 : parseVariableStringField ((((body.drop n1).drop n2).drop n3).drop n4) 35
    with ⟨w5, n5⟩
  have hq3' : parseVariableStringField (body.drop (n1 + n2)) 35 = (w3, n3) := by
    rw [← List.drop_drop]
    exact hq3
  have hq4' : parseVariableStringField (body.drop (n1 + n2 + n3)) 35 = (w4, n4) := by
    rw [← List.drop_drop, ← List.drop_drop]
    exact hq4
  have hq5' : parseVariableStringField (body.drop (n1 + n2 + n3 + n4)) 35 = (w5, n5) := by
    rw [← List.drop_drop, ← List.drop_drop, ← List.drop_drop]
    exact hq5
  have hps : w1 = v1 ∧ w2 = v2 ∧ w3 = v3 ∧ w4 = v4 ∧ w5 = v5 ∧
      n1 + n2 + n3 + n4 + n5 = n := by
    simp [parseSeq, hq1, hq2, hq3', hq4', hq5'] at hp
    obtain ⟨⟨f1, f2, f3, f4, f5⟩, fsum⟩ := hp
    exact ⟨f1, f2, f3, f4, f5, by omega⟩
  obtain ⟨e1, e2, e3, e4, e5, e6⟩ := hps
  have h7 : (tag ++ idc).length = 7 := by simp [h6, h1]
  have hassoc : tag ++ (idc ++ body) = (tag ++ idc) ++ body := by simp
  have hlen : (tag ++ (idc ++ body)).length = 7 + body.length := by
    rw [hassoc, List.length_append, h7]
  have hmin : ¬ (tag ++ (idc ++ body)).length < 9 := by omega
  have ht6 : (tag ++ (idc ++ body)).take 6 = tag := List.take_left' h6
  have hd6 : (tag ++ (idc ++ body)).drop 6 = idc ++ body := List.drop_left' h6
  have htake1 : (idc ++ body).take 1 = idc := List.take_left' h1
  have hdrop : ∀ m : Nat, (tag ++ (idc ++ body)).drop (7 + m) = body.drop m := by
    intro m
    rw [hassoc, ← h7]
    exact List.drop_append m
  have hd7 : (tag ++ (idc ++ body)).drop 7 = body := by
    have := hdrop 0
    simpa using this
  unfold Originator.Parse
  rw [if_neg hmin]
  simp only [ht6, hd6, htake1, hd7, hq1,
    show (7 + n1) + n2 = 7 + (n1 + n2) from by omega,
    show (7 + (n1 + n2)) + n3 = 7 + (n1 + n2 + n3) from by omega,
    show (7 + (n1 + n2 + n3)) + n4 = 7 + (n1 + n2 + n3 + n4) from by omega,
    show (7 + (n1 + n2 + n3 + n4)) + n5 = 7 + (n1 + n2 + n3 + n4 + n5) from by omega,
    hdrop, hq2, hq3', hq4', hq5', hlen]
  subst e1 e2 e3 e4 e5
  by_cases hbn : body.length = n
  · rw [if_neg (by omega), if_neg (by omega)]
  · rw [if_pos (by omega), if_pos (by omega)]

theorem FIPaymentMethodToBeneficiary_Parse_append (pm : FIPaymentMethodToBeneficiary)
    {tag pmf body v1 : List Char} {n : Nat} (h6 : tag.length = 6) (h5 : pmf.length = 5)
    (hp : parseSeq [30] body = ([v1], n)) :
    FIPaymentMethodToBeneficiary.Parse pm (tag ++ (pmf ++ body)) =
      (⟨tag, parseStringField pmf, v1⟩,
       if body.length ≠ n then some .tagMaxLength else none) := by
  rcases hq1 : parseVariableStringField body 30 with ⟨w1, n1⟩
  have hps : w1 = v1 ∧ n1 = n := by
    simp [parseSeq, hq1] at hp
    exact hp
  obtain ⟨e1, e2⟩ := hps
  have h11 : (tag ++ pmf).length = 11 := by simp [h6, h5]
  have hassoc : tag ++ (pmf ++ body) = (tag ++ pmf) ++ body := by simp
  have hlen : (tag ++ (pmf ++ body)).length = 11 + body.length := by
    rw [hassoc, List.length_append, h11]
  have hmin : ¬ (tag ++ (pmf ++ body)).length < 11 := by omega
  have ht6 : (tag ++ (pmf ++ body)).take 6 = tag := List.take_left' h6
  have hd6 : (tag ++ (pmf ++ body)).drop 6 = pmf ++ body := List.drop_left' h6
  have htake5 : (pmf ++ body).take 5 = pmf := List.take_left' h5
  have hd11 : (tag ++ (pmf ++ body)).drop 11 = body := by
    rw [hassoc, ← h11, List.drop_left]
  unfold FIPaymentMethodToBeneficiary.Parse
  rw [if_neg hmin]
  simp only [ht6, hd6, htake5, hd11, hq1, hlen]
  subst e1 e2
  by_cases hbn : body.length = n1
  · rw [if_neg (by omega), if_neg (by omega)]
  · rw [if_pos (by omega), if_pos (by omega)]

/-- The total number of characters consumed by a LocalInstrument decode: the
6-character prefix plus both variable fields' consumed counts. -/
def consumedLocalInstrument (record : List Char) : Nat :=
  6 + (parseSeq [4, 35] (record.drop 6)).2

/-- The total number of characters consumed by an Originator decode: the
prefix, the 1-character identification code, and the five variable fields. -/
def consumedOriginator (record : List Char) : Nat :=
  7 + (parseSeq [34, 35, 35, 35, 35] (record.drop 7)).2

/-- The total number of characters consumed by an FIPaymentMethodToBeneficiary
decode: the prefix, the 5-character payment method, and the variable field. -/
def consumedFIPaymentMethodToBeneficiary (record : List Char) : Nat :=
  11 + (parseSeq [30] (record.drop 11)).2

theorem parseSeq_two (body : List Char) :
    ∃ v1 v2 n, parseSeq [4, 35] body = ([v1, v2], n) := by
  rcases hq : parseSeq [4, 35] body with ⟨vs, n⟩
  have hl := parseSeq_length [4, 35] body
  rw [hq] at hl
  simp at hl
  rcases vs with _ | ⟨v1, _ | ⟨v2, _ | _⟩⟩ <;> simp at hl
  exact ⟨v1, v2, n, rfl⟩

theorem parseSeq_five (body : List Char) :
    ∃ v1 v2 v3 v4 v5 n, parseSeq [34, 35, 35, 35, 35] body = ([v1, v2, v3, v4, v5], n) := by
  rcases hq : parseSeq [34, 35, 35, 35, 35] body with ⟨vs, n⟩
  have hl := parseSeq_length [34, 35, 35, 35, 35] body
  rw [hq] at hl
  simp at hl
  rcases vs with _ | ⟨v1, _ | ⟨v2, _ | ⟨v3, _ | ⟨v4, _ | ⟨v5, _ | _⟩⟩⟩⟩⟩ <;> simp at hl
  exact ⟨v1, v2, v3, v4, v5, n, rfl⟩

theorem parseSeq_one (body : List Char) :
    ∃ v1 n, parseSeq [30] body = ([v1], n) := by
  rcases hq : parseSeq [30] body with ⟨vs, n⟩
  have hl := parseSeq_length [30] body
  rw [hq] at hl
  simp at hl
  rcases vs with _ | ⟨v1, _ | _⟩ <;> simp at hl
  exact ⟨v1, n, rfl⟩

/-- Claim C2: byte-accounting exactness.  For the tag variants embedded from
the source, a decode succeeds exactly when the prefix plus the consumed counts
of all decoded fields equal the record length, and a record that passes the
minimum-length guard but whose consumed total differs from its length is
rejected with `TagMaxLengthError`. -/
theorem claim_C2_byte_accounting :
    (∀ (li : LocalInstrument) (record : List Char),
      ((LocalInstrument.Parse li record).2 = none ↔
        6 ≤ record.length ∧ consumedLocalInstrument record = record.length) ∧
      (6 ≤ record.length → consumedLocalInstrument record ≠ record.length →
        (LocalInstrument.Parse li record).2 = some .tagMaxLength)) ∧
    (∀ (o : Originator) (record : List Char),
      ((Originator.Parse o record).2 = none ↔
        9 ≤ record.length ∧ consumedOriginator record = record.length) ∧
      (9 ≤ record.length → consumedOriginator record ≠ record.length →
        (Originator.Parse o record).2 = some .tagMaxLength)) ∧
    (∀ (pm : FIPaymentMethodToBeneficiary) (record : List Char),
      ((FIPaymentMethodToBeneficiary.Parse pm record).2 = none ↔
        11 ≤ record.length ∧
          consumedFIPaymentMethodToBeneficiary record = record.length) ∧
      (11 ≤ record.length → consumedFIPaymentMethodToBeneficiary record ≠ record.length →
        (FIPaymentMethodToBeneficiary.Parse pm record).2 = some .tagMaxLength)) := by
  refine ⟨fun li record => ?_, fun o record => ?_, fun pm record => ?_⟩
  · by_cases hmin : 6 ≤ record.length
    · obtain ⟨v1, v2, n, hq⟩ := parseSeq_two (record.drop 6)
      have h6 : (record.take 6).length = 6 := by
        rw [List.length_take]
        omega
      have hb := LocalInstrument_Parse_append li h6 hq
      rw [List.take_append_drop] at hb
      have hcons : consumedLocalInstrument record = 6 + n := by
        rw [consumedLocalInstrument, hq]
      have hdlen : (record.drop 6).length = record.length - 6 := by
        simp
      rw [hb]
      constructor
      · constructor
        · intro hnone
          by_cases hc : (record.drop 6).length ≠ n
          · rw [if_pos hc] at hnone; simp at hnone
          · refine ⟨hmin, by omega⟩
        · intro ⟨_, hcc⟩
          rw [if_neg (by omega)]
      · intro _ hne
        rw [if_pos (by omega)]
    · unfold LocalInstrument.Parse
      rw [if_pos (by omega)]
      simp
      omega
  · by_cases hmin : 9 ≤ record.length
    · obtain ⟨v1, v2, v3, v4, v5, n, hq⟩ := parseSeq_five (record.drop 7)
      have h6 : (record.take 6).length = 6 := by
        rw [List.length_take]
        omega
      have h1 : ((record.drop 6).take 1).length = 1 := by
        rw [List.length_take]
        simp
        omega
      have hb2 : 2 ≤ (record.drop 7).length := by
        simp
        omega
      have hsplit : record = record.take 6 ++ ((record.drop 6).take 1 ++ record.drop 7) := by
        conv_lhs => rw [← List.take_append_drop 6 record]
        congr 1
        conv_lhs => rw [← List.take_append_drop 1 (record.drop 6)]
        congr 1
        rw [List.drop_drop]
      have hq' : parseSeq [34, 35, 35, 35, 35]
          ((record.take 6 ++ ((record.drop 6).take 1 ++ record.drop 7)).drop 7) =
          ([v1, v2, v3, v4, v5], n) := by
        rw [← hsplit]
        exact hq
      have hb := Originator_Parse_append o h6 h1 hb2 hq
      rw [← hsplit] at hb
      have hcons : consumedOriginator record = 7 + n := by
        rw [consumedOriginator, hq]
      have hdlen : (record.drop 7).length = record.length - 7 := by
        simp
      rw [hb]
      constructor
      · constructor
        · intro hnone
          by_cases hc : (record.drop 7).length ≠ n
          · rw [if_pos hc] at hnone; simp at hnone
          · refine ⟨hmin, by omega⟩
        · intro ⟨_, hcc⟩
          rw [if_neg (by omega)]
      · intro _ hne
        rw [if_pos (by omega)]
    · unfold Originator.Parse
      rw [if_pos (by omega)]
      simp
      omega
  · by_cases hmin : 11 ≤ record.length
    · obtain ⟨v1, n, hq⟩ := parseSeq_one (record.drop 11)
      have h6 : (record.take 6).length = 6 := by
        rw [List.length_take]
        omega
      have h5 : ((record.drop 6).take 5).length = 5 := by
        rw [List.length_take]
        simp
        omega
      have hsplit : record = record.take 6 ++ ((record.drop 6).take 5 ++ record.drop 11) := by
        conv_lhs => rw [← List.take_append_drop 6 record]
        congr 1
        conv_lhs => rw [← List.take_append_drop 5 (record.drop 6)]
        congr 1
        rw [List.drop_drop]
      have hb := FIPaymentMethodToBeneficiary_Parse_append pm h6 h5 hq
      rw [← hsplit] at hb
      have hcons : consumedFIPaymentMethodToBeneficiary record = 11 + n := by
        rw [consumedFIPaymentMethodToBeneficiary, hq]
      have hdlen : (record.drop 11).length = record.length - 11 := by
        simp
      rw [hb]
      constructor
      · constructor
        · intro hnone
          by_cases hc : (record.drop 11).length ≠ n
          · rw [if_pos hc] at hnone; simp at hnone
          · refine ⟨hmin, by omega⟩
        · intro ⟨_, hcc⟩
          rw [if_neg (by omega)]
      · intro _ hne
        rw [if_pos (by omega)]
    · unfold FIPaymentMethodToBeneficiary.Parse
      rw [if_pos (by omega)]
      simp
      omega

/-- Witness for C2: the record `"\x7b3610\x7dANSI**X"` passes the
minimum-length guard, its consumed total (12) differs from its length (13),
and its decode is rejected with `TagMaxLengthError`. -/
theorem claim_C2_byte_accounting_witness :
    (LocalInstrument.Parse zeroLocalInstrument (cs "{3610}ANSI**X")).2 =
      some .tagMaxLength :=
  (claim_C2_byte_accounting.1 zeroLocalInstrument (cs "{3610}ANSI**X")).2
    (by decide) (by decide)

theorem zip_mem_of_append {α β : Type} :
    ∀ (kept rest : List α) (ws : List β) (p : α × β),
      p ∈ kept.zip ws → p ∈ (kept ++ rest).zip ws
  | [], _, _, _, h => by simp at h
  | _ :: _, _, [], _, h => by simp at h
  | k :: kt, rest, w :: wt, p, h => by
    rcases List.mem_cons.mp (by simpa [List.zip_cons_cons] using h) with h | h
    · simp [List.zip_cons_cons, h]
    · simp only [List.cons_append, List.zip_cons_cons, List.mem_cons]
      exact Or.inr (zip_mem_of_append kt rest wt p h)

theorem dte_length_le (vs : List (List Char)) :
    (dropTrailingEmpty vs).length ≤ vs.length := by
  unfold dropTrailingEmpty
  calc (vs.reverse.dropWhile (fun v => v = [])).reverse.length
      = (vs.reverse.dropWhile (fun v => v = [])).length := List.length_reverse _
    _ ≤ vs.reverse.length := (List.dropWhile_sublist _).length_le
    _ = vs.length := List.length_reverse vs

theorem dte_ne_nil_of_head {v : List Char} {vs : List (List Char)} (h : v ≠ []) :
    dropTrailingEmpty (v :: vs) ≠ [] := by
  intro hc
  have hd := dte_decomp (v :: vs)
  rw [hc] at hd
  simp only [List.nil_append] at hd
  have hv : v ∈ List.replicate ((v :: vs).length - ([] : List (List Char)).length)
      ([] : List Char) := by
    rw [← hd]
    exact List.mem_cons_self v vs
  exact h (List.eq_of_mem_replicate hv)

theorem dte_head_eq {v : List Char} {vs kt : List (List Char)} {k : List Char}
    (h : dropTrailingEmpty (v :: vs) = k :: kt) : k = v := by
  have hd := dte_decomp (v :: vs)
  rw [h] at hd
  simpa using congrArg List.head? hd.symm

theorem emitCompact_length_cons (v : List Char) (vs : List (List Char)) :
    (emitCompact (v :: vs)).length = v.length + 1 + (emitCompact vs).length := by
  simp [emitCompact]
  omega

theorem padConcat_length : ∀ (vs : List (List Char)) (ws : List Nat),
    vs.length = ws.length → (∀ p ∈ vs.zip ws, p.1.length ≤ p.2) →
    (padConcat vs ws).length = ws.sum
  | [], ws, hlen, _ => by
    cases ws with
    | nil => rfl
    | cons w wt => simp at hlen
  | v :: vs, [], hlen, _ => by simp at hlen
  | v :: vs, w :: ws, hlen, hcond => by
    have hv := hcond (v, w) (by simp)
    have ih := padConcat_length vs ws (by simpa using hlen)
      (fun p hp => hcond p (by simp [hp]))
    simp only [padConcat, List.length_append, alphaField_length hv, ih, List.sum_cons]

theorem fipm_roundtrip_aux (pm : FIPaymentMethodToBeneficiary) (hv : pm.Validate = none)
    (ht : noTrailSpace pm.AdditionalInformation = true)
    (hw : pm.AdditionalInformation.length ≤ 30) :
    FIPaymentMethodToBeneficiary.Parse zeroFIPaymentMethodToBeneficiary (pm.String false) =
      (pm, none) ∧
    FIPaymentMethodToBeneficiary.Parse zeroFIPaymentMethodToBeneficiary (pm.String true) =
      (pm, none) := by
  obtain ⟨h0, h1, h2⟩ := FIPM_validate_inv hv
  have hstar : noStar pm.AdditionalInformation = true := isAlphanumeric_noStar h2
  have h6 : pm.tag.length = 6 := by rw [h1]; decide
  have h5 : pm.PaymentMethod.length = 5 := by rw [h0]; decide
  have hps : parseStringField pm.PaymentMethod = pm.PaymentMethod := by
    rw [h0]; decide
  have hpad : alphaField pm.PaymentMethod 5 = pm.PaymentMethod := alphaField_exact h5
  constructor
  · -- legacy mode
    have hpc : padConcat [pm.AdditionalInformation] [30] =
        alphaField pm.AdditionalInformation 30 := by
      simp [padConcat]
    have hseq : parseSeq [30] (alphaField pm.AdditionalInformation 30) =
        ([pm.AdditionalInformation], 30) := by
      have := parseSeq_pad [30] [pm.AdditionalInformation] (by simp)
        (by
          intro p hp
          simp at hp
          subst hp
          exact ⟨hstar, ht, hw⟩)
      rw [hpc] at this
      simpa using this
    have hstr : pm.String false =
        pm.tag ++ (pm.PaymentMethod ++ alphaField pm.AdditionalInformation 30) := by
      simp [FIPaymentMethodToBeneficiary.String, alphaVariableField, hpad,
        List.append_assoc]
    rw [hstr, FIPaymentMethodToBeneficiary_Parse_append zeroFIPaymentMethodToBeneficiary h6 h5 hseq]
    rw [if_neg (by rw [alphaField_length hw]; omega), hps]
  · -- compact mode
    have hemit : emitCompact [pm.AdditionalInformation] =
        pm.AdditionalInformation ++ ['*'] := by
      simp [emitCompact]
    have hseq : parseSeq [30] (pm.AdditionalInformation ++ ['*']) =
        ([pm.AdditionalInformation], pm.AdditionalInformation.length + 1) := by
      have := parseSeq_emit [30] [pm.AdditionalInformation] (by simp)
        (by
          intro p hp
          simp at hp
          subst hp
          exact ⟨hstar, ht, hw⟩)
      rw [hemit] at this
      simpa using this
    have hstr : pm.String true =
        pm.tag ++ (pm.PaymentMethod ++ (pm.AdditionalInformation ++ ['*'])) := by
      simp [FIPaymentMethodToBeneficiary.String, alphaVariableField, hpad,
        List.append_assoc]
    rw [hstr, FIPaymentMethodToBeneficiary_Parse_append zeroFIPaymentMethodToBeneficiary h6 h5 hseq]
    rw [if_neg (by simp), hps]

theorem li_roundtrip_aux (li : LocalInstrument) (hv : li.Validate = none)
    (ht : noTrailSpace li.ProprietaryCode = true)
    (hw : li.ProprietaryCode.length ≤ 35) :
    LocalInstrument.Parse zeroLocalInstrument (li.String false) = (li, none) ∧
    LocalInstrument.Parse zeroLocalInstrument (li.String true) = (li, none) := by
  obtain ⟨hincl, htag, hcode, halnum⟩ := LI_validate_inv hv
  obtain ⟨hl4, hcs, hct, hcne⟩ := LIcode_facts hcode
  have hpstar : noStar li.ProprietaryCode = true := isAlphanumeric_noStar halnum
  have h6 : li.tag.length = 6 := by rw [htag]; decide
  have hcond : ∀ p ∈ ([li.LocalInstrumentCode, li.ProprietaryCode].zip [4, 35]),
      noStar p.1 = true ∧ noTrailSpace p.1 = true ∧ p.1.length ≤ p.2 := by
    intro p hp
    simp at hp
    rcases hp with rfl | rfl
    · exact ⟨hcs, hct, by
        show li.LocalInstrumentCode.length ≤ 4
        omega⟩
    · exact ⟨hpstar, ht, hw⟩
  constructor
  · -- legacy mode
    have hpc : padConcat [li.LocalInstrumentCode, li.ProprietaryCode] [4, 35] =
        alphaField li.LocalInstrumentCode 4 ++ alphaField li.ProprietaryCode 35 := by
      simp [padConcat]
    have hseq : parseSeq [4, 35]
        (alphaField li.LocalInstrumentCode 4 ++ alphaField li.ProprietaryCode 35) =
        ([li.LocalInstrumentCode, li.ProprietaryCode], 39) := by
      have := parseSeq_pad [4, 35] [li.LocalInstrumentCode, li.ProprietaryCode]
        (by simp) hcond
      rw [hpc] at this
      simpa using this
    have hstr : li.String false = li.tag ++
        (alphaField li.LocalInstrumentCode 4 ++ alphaField li.ProprietaryCode 35) := by
      simp [LocalInstrument.String, alphaVariableField, List.append_assoc]
    rw [hstr, LocalInstrument_Parse_append zeroLocalInstrument h6 hseq]
    rw [if_neg (by
      rw [List.length_append, alphaField_length (by omega), alphaField_length hw]
      omega)]
  · -- compact mode
    have hce : dropTrailingEmpty [li.LocalInstrumentCode, li.ProprietaryCode] ≠ [] :=
      dte_ne_nil_of_head hcne
    have hdd := dte_decomp [li.LocalInstrumentCode, li.ProprietaryCode]
    have hmemStar : ∀ v ∈ [li.LocalInstrumentCode, li.ProprietaryCode], noStar v = true := by
      intro v hv'
      simp at hv'
      rcases hv' with rfl | rfl
      · exact hcs
      · exact hpstar
    have hbuf : li.tag ++ alphaVariableField li.LocalInstrumentCode 4 true
        ++ alphaVariableField li.ProprietaryCode 35 true =
        li.tag ++ emitCompact [li.LocalInstrumentCode, li.ProprietaryCode] := by
      simp [alphaVariableField, emitCompact]
    have hstr : li.String true = li.tag ++
        emitCompact (dropTrailingEmpty [li.LocalInstrumentCode, li.ProprietaryCode]) := by
      show stripDelimiters _ = _
      rw [hbuf]
      exact strip_emit li.tag _ hmemStar hce
    have hklen : (dropTrailingEmpty [li.LocalInstrumentCode, li.ProprietaryCode]).length
        ≤ 2 := by
      have := dte_length_le [li.LocalInstrumentCode, li.ProprietaryCode]
      simpa using this
    have hseq : parseSeq [4, 35]
        (emitCompact (dropTrailingEmpty [li.LocalInstrumentCode, li.ProprietaryCode])) =
        ([li.LocalInstrumentCode, li.ProprietaryCode],
         (emitCompact
           (dropTrailingEmpty [li.LocalInstrumentCode, li.ProprietaryCode])).length) := by
      have := parseSeq_emit [4, 35]
        (dropTrailingEmpty [li.LocalInstrumentCode, li.ProprietaryCode])
        (by simpa using hklen)
        (by
          intro p hp
          exact hcond p (by
            have := zip_mem_of_append
              (dropTrailingEmpty [li.LocalInstrumentCode, li.ProprietaryCode])
              (List.replicate
                (([li.LocalInstrumentCode, li.ProprietaryCode]).length -
                  (dropTrailingEmpty
                    [li.LocalInstrumentCode, li.ProprietaryCode]).length) [])
              [4, 35] p hp
            rw [← hdd] at this
            exact this))
      rw [this]
      congr 1
      rw [show ([4, 35] : List Nat).length =
          ([li.LocalInstrumentCode, li.ProprietaryCode] : List (List Char)).length
          from by simp, ← hdd]
    rw [hstr, LocalInstrument_Parse_append zeroLocalInstrument h6 hseq]
    rw [if_neg (by omega)]

theorem orig_roundtrip_aux (o : Originator) (hv : o.Validate = none)
    (ht1 : noTrailSpace o.Personal.Identifier = true)
    (hw1 : o.Personal.Identifier.length ≤ 34)
    (ht2 : noTrailSpace o.Personal.Name = true)
    (hw2 : o.Personal.Name.length ≤ 35)
    (ht3 : noTrailSpace o.Personal.Address.AddressLineOne = true)
    (hw3 : o.Personal.Address.AddressLineOne.length ≤ 35)
    (ht4 : noTrailSpace o.Personal.Address.AddressLineTwo = true)
    (hw4 : o.Personal.Address.AddressLineTwo.length ≤ 35)
    (ht5 : noTrailSpace o.Personal.Address.AddressLineThree = true)
    (hw5 : o.Personal.Address.AddressLineThree.length ≤ 35) :
    Originator.Parse zeroOriginator (o.String false) = (o, none) ∧
    Originator.Parse zeroOriginator (o.String true) = (o, none) := by
  obtain ⟨himpl, htag, hidc, ha1, ha2, ha3, ha4, ha5⟩ := Orig_validate_inv hv
  obtain ⟨hil1, hics, hict, hicne⟩ := idCode_facts hidc
  have hident : o.Personal.Identifier ≠ [] := himpl hicne
  have hs1 : noStar o.Personal.Identifier = true := isAlphanumeric_noStar ha1
  have hs2 : noStar o.Personal.Name = true := isAlphanumeric_noStar ha2
  have hs3 : noStar o.Personal.Address.AddressLineOne = true := isAlphanumeric_noStar ha3
  have hs4 : noStar o.Personal.Address.AddressLineTwo = true := isAlphanumeric_noStar ha4
  have hs5 : noStar o.Personal.Address.AddressLineThree = true := isAlphanumeric_noStar ha5
  have h6 : o.tag.length = 6 := by rw [htag]; decide
  have hpadid : alphaField o.Personal.IdentificationCode 1 =
      o.Personal.IdentificationCode := alphaField_exact hil1
  have hpsid : parseStringField o.Personal.IdentificationCode =
      o.Personal.IdentificationCode := trim_self hict
  have hcond : ∀ p ∈ (([o.Personal.Identifier, o.Personal.Name,
      o.Personal.Address.AddressLineOne, o.Personal.Address.AddressLineTwo,
      o.Personal.Address.AddressLineThree]).zip [34, 35, 35, 35, 35]),
      noStar p.1 = true ∧ noTrailSpace p.1 = true ∧ p.1.length ≤ p.2 := by
    intro p hp
    simp at hp
    rcases hp with rfl | rfl | rfl | rfl | rfl
    · exact ⟨hs1, ht1, by
        show o.Personal.Identifier.length ≤ 34
        omega⟩
    · exact ⟨hs2, ht2, hw2⟩
    · exact ⟨hs3, ht3, hw3⟩
    · exact ⟨hs4, ht4, hw4⟩
    · exact ⟨hs5, ht5, hw5⟩
  constructor
  · -- legacy mode
    have hpc : padConcat [o.Personal.Identifier, o.Personal.Name,
        o.Personal.Address.AddressLineOne, o.Personal.Address.AddressLineTwo,
        o.Personal.Address.AddressLineThree] [34, 35, 35, 35, 35] =
        alphaField o.Personal.Identifier 34 ++ (alphaField o.Personal.Name 35
          ++ (alphaField o.Personal.Address.AddressLineOne 35
          ++ (alphaField o.Personal.Address.AddressLineTwo 35
          ++ alphaField o.Personal.Address.AddressLineThree 35))) := by
      simp [padConcat]
    have hplen : (padConcat [o.Personal.Identifier, o.Personal.Name,
        o.Personal.Address.AddressLineOne, o.Personal.Address.AddressLineTwo,
        o.Personal.Address.AddressLineThree] [34, 35, 35, 35, 35]).length = 174 := by
      have := padConcat_length [o.Personal.Identifier, o.Personal.Name,
        o.Personal.Address.AddressLineOne, o.Personal.Address.AddressLineTwo,
        o.Personal.Address.AddressLineThree] [34, 35, 35, 35, 35] (by simp)
        (fun p hp => (hcond p hp).2.2)
      simpa using this
    have hseq : parseSeq [34, 35, 35, 35, 35]
        (padConcat [o.Personal.Identifier, o.Personal.Name,
          o.Personal.Address.AddressLineOne, o.Personal.Address.AddressLineTwo,
          o.Personal.Address.AddressLineThree] [34, 35, 35, 35, 35]) =
        ([o.Personal.Identifier, o.Personal.Name,
          o.Personal.Address.AddressLineOne, o.Personal.Address.AddressLineTwo,
          o.Personal.Address.AddressLineThree], 174) := by
      have := parseSeq_pad [34, 35, 35, 35, 35] [o.Personal.Identifier, o.Personal.Name,
        o.Personal.Address.AddressLineOne, o.Personal.Address.AddressLineTwo,
        o.Personal.Address.AddressLineThree] (by simp) hcond
      simpa using this
    have hstr : o.String false = o.tag ++ (o.Personal.IdentificationCode ++
        padConcat [o.Personal.Identifier, o.Personal.Name,
          o.Personal.Address.AddressLineOne, o.Personal.Address.AddressLineTwo,
          o.Personal.Address.AddressLineThree] [34, 35, 35, 35, 35]) := by
      rw [hpc]
      simp [Originator.String, alphaVariableField, hpadid, List.append_assoc]
    rw [hstr, Originator_Parse_append zeroOriginator h6 hil1 (by omega) hseq, hpsid]
    rw [if_neg (by omega)]
  · -- compact mode
    have hce : dropTrailingEmpty [o.Personal.Identifier, o.Personal.Name,
        o.Personal.Address.AddressLineOne, o.Personal.Address.AddressLineTwo,
        o.Personal.Address.AddressLineThree] ≠ [] := dte_ne_nil_of_head hident
    have hdd := dte_decomp [o.Personal.Identifier, o.Personal.Name,
      o.Personal.Address.AddressLineOne, o.Personal.Address.AddressLineTwo,
      o.Personal.Address.AddressLineThree]
    have hmemStar : ∀ v ∈ [o.Personal.Identifier, o.Personal.Name,
        o.Personal.Address.AddressLineOne, o.Personal.Address.AddressLineTwo,
        o.Personal.Address.AddressLineThree], noStar v = true := by
      intro v hv'
      simp at hv'
      rcases hv' with rfl | rfl | rfl | rfl | rfl
      · exact hs1
      · exact hs2
      · exact hs3
      · exact hs4
      · exact hs5
    have hstr : o.String true = (o.tag ++ o.Personal.IdentificationCode) ++
        emitCompact (dropTrailingEmpty [o.Personal.Identifier, o.Personal.Name,
          o.Personal.Address.AddressLineOne, o.Personal.Address.AddressLineTwo,
          o.Personal.Address.AddressLineThree]) := by
      show stripDelimiters _ = _
      rw [← strip_emit (o.tag ++ o.Personal.IdentificationCode) _ hmemStar hce]
      congr 1
      simp [alphaVariableField, emitCompact, hpadid, List.append_assoc]
    have hklen : (dropTrailingEmpty [o.Personal.Identifier, o.Personal.Name,
        o.Personal.Address.AddressLineOne, o.Personal.Address.AddressLineTwo,
        o.Personal.Address.AddressLineThree]).length ≤ 5 := by
      have := dte_length_le [o.Personal.Identifier, o.Personal.Name,
        o.Personal.Address.AddressLineOne, o.Personal.Address.AddressLineTwo,
        o.Personal.Address.AddressLineThree]
      simpa using this
    have hseq : parseSeq [34, 35, 35, 35, 35]
        (emitCompact (dropTrailingEmpty [o.Personal.Identifier, o.Personal.Name,
          o.Personal.Address.AddressLineOne, o.Personal.Address.AddressLineTwo,
          o.Personal.Address.AddressLineThree])) =
        ([o.Personal.Identifier, o.Personal.Name,
          o.Personal.Address.AddressLineOne, o.Personal.Address.AddressLineTwo,
          o.Personal.Address.AddressLineThree],
         (emitCompact (dropTrailingEmpty [o.Personal.Identifier, o.Personal.Name,
           o.Personal.Address.AddressLineOne, o.Personal.Address.AddressLineTwo,
           o.Personal.Address.AddressLineThree])).length) := by
      have := parseSeq_emit [34, 35, 35, 35, 35]
        (dropTrailingEmpty [o.Personal.Identifier, o.Personal.Name,
          o.Personal.Address.AddressLineOne, o.Personal.Address.AddressLineTwo,
          o.Personal.Address.AddressLineThree])
        (by simpa using hklen)
        (by
          intro p hp
          exact hcond p (by
            have := zip_mem_of_append
              (dropTrailingEmpty [o.Personal.Identifier, o.Personal.Name,
                o.Personal.Address.AddressLineOne, o.Personal.Address.AddressLineTwo,
                o.Personal.Address.AddressLineThree])
              (List.replicate
                (([o.Personal.Identifier, o.Personal.Name,
                  o.Personal.Address.AddressLineOne, o.Personal.Address.AddressLineTwo,
                  o.Personal.Address.AddressLineThree]).length -
                  (dropTrailingEmpty [o.Personal.Identifier, o.Personal.Name,
                    o.Personal.Address.AddressLineOne, o.Personal.Address.AddressLineTwo,
                    o.Personal.Address.AddressLineThree]).length) [])
              [34, 35, 35, 35, 35] p hp
            rw [← hdd] at this
            exact this))
      rw [this]
      congr 1
      rw [show ([34, 35, 35, 35, 35] : List Nat).length =
          ([o.Personal.Identifier, o.Personal.Name,
            o.Personal.Address.AddressLineOne, o.Personal.Address.AddressLineTwo,
            o.Personal.Address.AddressLineThree] : List (List Char)).length
          from by simp, ← hdd]
    have hblen : 2 ≤ (emitCompact (dropTrailingEmpty [o.Personal.Identifier,
        o.Personal.Name, o.Personal.Address.AddressLineOne,
        o.Personal.Address.AddressLineTwo,
        o.Personal.Address.AddressLineThree])).length := by
      cases hk : dropTrailingEmpty [o.Personal.Identifier, o.Personal.Name,
          o.Personal.Address.AddressLineOne, o.Personal.Address.AddressLineTwo,
          o.Personal.Address.AddressLineThree] with
      | nil => exact absurd hk hce
      | cons k kt =>
        have hke : k = o.Personal.Identifier := dte_head_eq hk
        have hkne : k.length ≥ 1 := by
          rw [hke]
          cases hh : o.Personal.Identifier with
          | nil => exact absurd hh hident
          | cons a t => simp
        rw [emitCompact_length_cons]
        omega
    rw [hstr, List.append_assoc, Originator_Parse_append zeroOriginator h6 hil1 hblen hseq, hpsid]
    rw [if_neg (by omega)]

/-- Claim C1 as stated is false: the FIPaymentMethodToBeneficiary assignment
with additional information `"A "` (trailing space) passes Validate, yet
re-parsing its legacy serialization trims the trailing pad and yields the
different field value `"A"`. -/
theorem claim_C1_counterexample :
    (FIPaymentMethodToBeneficiary.Validate
      ⟨TagFIPaymentMethodToBeneficiary, PaymentMethodCHECK, cs "A "⟩) = none ∧
    FIPaymentMethodToBeneficiary.Parse zeroFIPaymentMethodToBeneficiary
      (FIPaymentMethodToBeneficiary.String
        ⟨TagFIPaymentMethodToBeneficiary, PaymentMethodCHECK, cs "A "⟩ false) =
      (⟨TagFIPaymentMethodToBeneficiary, PaymentMethodCHECK, cs "A"⟩, none) ∧
    (cs "A" : List Char) ≠ cs "A " :=
  ⟨by decide, by decide, by decide⟩

/-- Claim C1, amended: the round trip holds in both serialization modes for
every Validate-passing field assignment of LocalInstrument, Originator and
FIPaymentMethodToBeneficiary whose variable-length field values have no
trailing space and do not exceed their declared widths (validation alone does
not bound lengths or forbid trailing pad characters, so the unrestricted claim
fails). -/
theorem claim_C1_round_trip_amended :
    (∀ li : LocalInstrument, li.Validate = none →
      noTrailSpace li.ProprietaryCode = true → li.ProprietaryCode.length ≤ 35 →
      LocalInstrument.Parse zeroLocalInstrument (li.String false) = (li, none) ∧
      LocalInstrument.Parse zeroLocalInstrument (li.String true) = (li, none)) ∧
    (∀ o : Originator, o.Validate = none →
      noTrailSpace o.Personal.Identifier = true → o.Personal.Identifier.length ≤ 34 →
      noTrailSpace o.Personal.Name = true → o.Personal.Name.length ≤ 35 →
      noTrailSpace o.Personal.Address.AddressLineOne = true →
      o.Personal.Address.AddressLineOne.length ≤ 35 →
      noTrailSpace o.Personal.Address.AddressLineTwo = true →
      o.Personal.Address.AddressLineTwo.length ≤ 35 →
      noTrailSpace o.Personal.Address.AddressLineThree = true →
      o.Personal.Address.AddressLineThree.length ≤ 35 →
      Originator.Parse zeroOriginator (o.String false) = (o, none) ∧
      Originator.Parse zeroOriginator (o.String true) = (o, none)) ∧
    (∀ pm : FIPaymentMethodToBeneficiary, pm.Validate = none →
      noTrailSpace pm.AdditionalInformation = true →
      pm.AdditionalInformation.length ≤ 30 →
      FIPaymentMethodToBeneficiary.Parse zeroFIPaymentMethodToBeneficiary
        (pm.String false) = (pm, none) ∧
      FIPaymentMethodToBeneficiary.Parse zeroFIPaymentMethodToBeneficiary
        (pm.String true) = (pm, none)) :=
  ⟨li_roundtrip_aux,
   fun o hv ht1 hw1 ht2 hw2 ht3 hw3 ht4 hw4 ht5 hw5 =>
     orig_roundtrip_aux o hv ht1 hw1 ht2 hw2 ht3 hw3 ht4 hw4 ht5 hw5,
   fipm_roundtrip_aux⟩

/-- Witness for the amended C1: the valid LocalInstrument with code PROP and
proprietary code ABC round-trips through both serialization modes. -/
theorem claim_C1_round_trip_amended_witness :
    LocalInstrument.Parse zeroLocalInstrument
      (LocalInstrument.String ⟨TagLocalInstrument, cs "PROP", cs "ABC"⟩ false) =
      (⟨TagLocalInstrument, cs "PROP", cs "ABC"⟩, none) ∧
    LocalInstrument.Parse zeroLocalInstrument
      (LocalInstrument.String ⟨TagLocalInstrument, cs "PROP", cs "ABC"⟩ true) =
      (⟨TagLocalInstrument, cs "PROP", cs "ABC"⟩, none) :=
  claim_C1_round_trip_amended.1 ⟨TagLocalInstrument, cs "PROP", cs "ABC"⟩
    (by decide) (by decide) (by decide)

/-- Claim C3: the Charges line `"\x7b3700\x7dB*"` (variable field terminated
immediately by the delimiter) decodes with charge details `"B"`, all
sender-charges fields empty and nothing left over; the legacy serialization is
`"\x7b3700\x7dB"` padded with spaces to the declared total width of 67, and the
compact serialization reproduces the original line exactly. -/
theorem claim_C3_charges_scenario :
    Charges.Parse zeroCharges (cs "{3700}B*") =
      (⟨cs "{3700}", cs "B", [], [], [], []⟩, none) ∧
    Charges.String ⟨cs "{3700}", cs "B", [], [], [], []⟩ false =
      cs "{3700}B                                                            " ∧
    (Charges.String ⟨cs "{3700}", cs "B", [], [], [], []⟩ false).length = 67 ∧
    Charges.String ⟨cs "{3700}", cs "B", [], [], [], []⟩ true = cs "{3700}B*" := by
  exact ⟨by decide, by decide, by decide, by decide⟩

/-- Claim C8: the prefix-only Charges line `"\x7b3700\x7d"` fails with
`TagMinLengthError` reporting required 7 and actual 6, and every embedded tag
variant rejects any record shorter than its minimum-length guard with a
`TagMinLengthError` carrying that required length and the record's actual
length. -/
theorem claim_C8_min_length :
    Charges.Parse zeroCharges (cs "{3700}") = (zeroCharges, some (.tagMinLength 7 6)) ∧
    (∀ (c : Charges) (record : List Char), record.length < 7 →
      (Charges.Parse c record).2 = some (.tagMinLength 7 record.length)) ∧
    (∀ (li : LocalInstrument) (record : List Char), record.length < 6 →
      (LocalInstrument.Parse li record).2 = some (.tagMinLength 6 record.length)) ∧
    (∀ (o : Originator) (record : List Char), record.length < 9 →
      (Originator.Parse o record).2 = some (.tagMinLength 9 record.length)) ∧
    (∀ (pm : FIPaymentMethodToBeneficiary) (record : List Char), record.length < 11 →
      (FIPaymentMethodToBeneficiary.Parse pm record).2 =
        some (.tagMinLength 11 record.length)) := by
  refine ⟨by decide, ?_, ?_, ?_, ?_⟩
  · intro c record h
    unfold Charges.Parse
    rw [if_pos h]
  · intro li record h
    unfold LocalInstrument.Parse
    rw [if_pos h]
  · intro o record h
    unfold Originator.Parse
    rw [if_pos h]
  · intro pm record h
    unfold FIPaymentMethodToBeneficiary.Parse
    rw [if_pos h]

/-- Witness for C8: the one-character-short Originator record `"\x7b5000\x7dC1"`
(length 8) is rejected with `TagMinLengthError` reporting required 9, actual 8. -/
theorem claim_C8_min_length_witness :
    (Originator.Parse zeroOriginator (cs "{5000}C1")).2 = some (.tagMinLength 9 8) :=
  claim_C8_min_length.2.2.2.1 zeroOriginator (cs "{5000}C1") (by decide)

theorem parseLocalInstrumentM_err {st : RState} {line : List Char} {e : WireErr}
    (h : (LocalInstrument.Parse zeroLocalInstrument line).1.Validate = some e) :
    parseLocalInstrumentM st line =
      ({ st with tagName := "LocalInstrument" },
       some (.parse st.lineNum "LocalInstrument" e)) := by
  simp only [parseLocalInstrumentM]
  rw [h]
  rfl

theorem parseLocalInstrumentM_ok {st : RState} {line : List Char}
    (h : (LocalInstrument.Parse zeroLocalInstrument line).1.Validate = none) :
    parseLocalInstrumentM st line =
      ({ st with
         tagName := "LocalInstrument"
         current := st.current.SetLocalInstrument
           (LocalInstrument.Parse zeroLocalInstrument line).1 }, none) := by
  simp only [parseLocalInstrumentM]
  rw [h]

theorem parseChargesM_err {st : RState} {line : List Char} {e : WireErr}
    (h : (Charges.Parse zeroCharges line).1.Validate = some e) :
    parseChargesM st line =
      ({ st with tagName := "Charges" }, some (.parse st.lineNum "Charges" e)) := by
  simp only [parseChargesM]
  rw [h]
  rfl

theorem parseChargesM_ok {st : RState} {line : List Char}
    (h : (Charges.Parse zeroCharges line).1.Validate = none) :
    parseChargesM st line =
      ({ st with
         tagName := "Charges"
         current := st.current.SetCharges (Charges.Parse zeroCharges line).1 }, none) := by
  simp only [parseChargesM]
  rw [h]

theorem parseOriginatorM_err {st : RState} {line : List Char} {e : WireErr}
    (h : (Originator.Parse zeroOriginator line).1.Validate = some e) :
    parseOriginatorM st line =
      ({ st with tagName := "Originator" }, some (.parse st.lineNum "Originator" e)) := by
  simp only [parseOriginatorM]
  rw [h]
  rfl

theorem parseOriginatorM_ok {st : RState} {line : List Char}
    (h : (Originator.Parse zeroOriginator line).1.Validate = none) :
    parseOriginatorM st line =
      ({ st with
         tagName := "Originator"
         current := st.current.SetOriginator
           (Originator.Parse zeroOriginator line).1 }, none) := by
  simp only [parseOriginatorM]
  rw [h]

theorem parseFIPaymentMethodToBeneficiaryM_err {st : RState} {line : List Char}
    {e : WireErr}
    (h : (FIPaymentMethodToBeneficiary.Parse zeroFIPaymentMethodToBeneficiary
      line).1.Validate = some e) :
    parseFIPaymentMethodToBeneficiaryM st line =
      ({ st with tagName := "FIPaymentMethodToBeneficiary" },
       some (.parse st.lineNum "FIPaymentMethodToBeneficiary" e)) := by
  simp only [parseFIPaymentMethodToBeneficiaryM]
  rw [h]
  rfl

theorem parseFIPaymentMethodToBeneficiaryM_ok {st : RState} {line : List Char}
    (h : (FIPaymentMethodToBeneficiary.Parse zeroFIPaymentMethodToBeneficiary
      line).1.Validate = none) :
    parseFIPaymentMethodToBeneficiaryM st line =
      ({ st with
         tagName := "FIPaymentMethodToBeneficiary"
         current := st.current.SetFIPaymentMethodToBeneficiary
           (FIPaymentMethodToBeneficiary.Parse zeroFIPaymentMethodToBeneficiary line).1 },
       none) := by
  simp only [parseFIPaymentMethodToBeneficiaryM]
  rw [h]

/-- Claim C6 as stated is false: the LocalInstrument line
`"\x7b3610\x7dANSI**X"` fails decode with `TagMaxLengthError`, yet the reader
helper discards the decode error, records nothing, and silently stores the
partially decoded tag because the populated fields happen to validate. -/
theorem claim_C6_counterexample :
    (LocalInstrument.Parse zeroLocalInstrument (cs "{3610}ANSI**X")).2 =
      some .tagMaxLength ∧
    parseLocalInstrumentM initialRState (cs "{3610}ANSI**X") =
      ({ initialRState with
         tagName := "LocalInstrument"
         current := emptyFWM.SetLocalInstrument ⟨cs "{3610}", cs "ANSI", []⟩ }, none) :=
  ⟨by decide, by rfl⟩

/-- Claim C6, amended: the per-tag reader helpers gate only on `Validate` —
the decode error of `Parse` is discarded.  A line whose populated tag fails
Validate is reported with a line-tagged error and scanning continues with the
next line; a line whose populated tag validates is stored into the current
aggregate unconditionally, overwriting any prior occurrence of that tag type
(shown for the LocalInstrument and Originator helpers cited by the claim). -/
theorem claim_C6_fail_soft_amended :
    (∀ (st : RState) (line : List Char) (e : WireErr),
      (LocalInstrument.Parse zeroLocalInstrument line).1.Validate = some e →
      parseLocalInstrumentM st line =
        ({ st with tagName := "LocalInstrument" },
         some (.parse st.lineNum "LocalInstrument" e))) ∧
    (∀ (st : RState) (line : List Char),
      (LocalInstrument.Parse zeroLocalInstrument line).1.Validate = none →
      parseLocalInstrumentM st line =
        ({ st with
           tagName := "LocalInstrument"
           current := st.current.SetLocalInstrument
             (LocalInstrument.Parse zeroLocalInstrument line).1 }, none)) ∧
    (∀ (st : RState) (line : List Char) (e : WireErr),
      (Originator.Parse zeroOriginator line).1.Validate = some e →
      parseOriginatorM st line =
        ({ st with tagName := "Originator" },
         some (.parse st.lineNum "Originator" e))) ∧
    (∀ (st : RState) (line : List Char),
      (Originator.Parse zeroOriginator line).1.Validate = none →
      parseOriginatorM st line =
        ({ st with
           tagName := "Originator"
           current := st.current.SetOriginator
             (Originator.Parse zeroOriginator line).1 }, none)) ∧
    (∀ (st : RState) (l : List Char) (ls : List (List Char)) (st' : RState) (e : RErr),
      parseLineM { st with lineNum := st.lineNum + 1 } l = some (st', some e) →
      readLoop st (l :: ls) = readLoop { st' with errors := st'.errors ++ [e] } ls) :=
  ⟨fun _ _ _ h => parseLocalInstrumentM_err h,
   fun _ _ h => parseLocalInstrumentM_ok h,
   fun _ _ _ h => parseOriginatorM_err h,
   fun _ _ h => parseOriginatorM_ok h,
   fun st l ls st' e h => by
     simp only [readLoop]
     rw [h]⟩

/-- Witness for the amended C6: a validating LocalInstrument line overwrites a
previously stored LocalInstrument in the current aggregate, and a line whose
populated tag fails validation is reported as a wrapped line-tagged error. -/
theorem claim_C6_fail_soft_amended_witness :
    parseLocalInstrumentM
      { initialRState with
        current := emptyFWM.SetLocalInstrument ⟨TagLocalInstrument, cs "NARR", []⟩ }
      (cs "{3610}ANSI") =
      ({ initialRState with
         tagName := "LocalInstrument"
         current := emptyFWM.SetLocalInstrument ⟨cs "{3610}", cs "ANSI", []⟩ }, none) ∧
    parseLocalInstrumentM initialRState (cs "{3610}ZZZZ") =
      ({ initialRState with tagName := "LocalInstrument" },
       some (.parse 0 "LocalInstrument" (.badEnum "LocalInstrumentCode"))) := by
  constructor
  · have h := claim_C6_fail_soft_amended.2.1
      { initialRState with
        current := emptyFWM.SetLocalInstrument ⟨TagLocalInstrument, cs "NARR", []⟩ }
      (cs "{3610}ANSI") (by decide)
    rw [h]
    rfl
  · have h := claim_C6_fail_soft_amended.1 initialRState (cs "{3610}ZZZZ")
      (.badEnum "LocalInstrumentCode") (by decide)
    rw [h]
    rfl

/-- Claim C7: fixed-only tags are rejected on any length mismatch with a
`TagWrongLengthError`, but the InputMessageAccountabilityData pre-check is
internally inconsistent: it enforces length 28 while constructing the error
with a required length of 22.  At the failing input of length 22 the reader
rejects the line with an error reporting required 22 and actual 22.  The
SenderSupplied pre-check, by contrast, reports the enforced length 18. -/
theorem claim_C7_fixed_length_check :
    (∀ (st : RState) (line : List Char), line.length ≠ 18 →
      parseSenderSuppliedM st line =
        ({ st with
           tagName := "SenderSupplied"
           errors := st.errors ++
             [.parse st.lineNum "SenderSupplied" (.tagWrongLength 18 line.length)] },
         some (.errList (st.errors ++
           [.parse st.lineNum "SenderSupplied" (.tagWrongLength 18 line.length)])))) ∧
    (∀ (st : RState) (line : List Char), line.length ≠ 28 →
      parseInputMessageAccountabilityDataM st line =
        ({ st with
           tagName := "InputMessageAccountabilityData"
           errors := st.errors ++
             [.parse st.lineNum "InputMessageAccountabilityData"
               (.tagWrongLength 22 line.length)] },
         some (.errList (st.errors ++
           [.parse st.lineNum "InputMessageAccountabilityData"
             (.tagWrongLength 22 line.length)])))) ∧
    parseInputMessageAccountabilityDataM initialRState (cs "{1520}ABCDEFGHIJKLMNOP") =
      ({ initialRState with
         tagName := "InputMessageAccountabilityData"
         errors := [.parse 0 "InputMessageAccountabilityData" (.tagWrongLength 22 22)] },
       some (.errList
         [.parse 0 "InputMessageAccountabilityData" (.tagWrongLength 22 22)])) := by
  refine ⟨?_, ?_, by rfl⟩
  · intro st line h
    simp only [parseSenderSuppliedM]
    rw [if_pos h]
    rfl
  · intro st line h
    simp only [parseInputMessageAccountabilityDataM]
    rw [if_pos h]
    rfl

/-- Witness for C7: a short SenderSupplied line is rejected with a wrapped
`TagWrongLengthError` reporting required 18, actual 7. -/
theorem claim_C7_fixed_length_check_witness :
    parseSenderSuppliedM initialRState (cs "{1500}X") =
      ({ initialRState with
         tagName := "SenderSupplied"
         errors := [.parse 0 "SenderSupplied" (.tagWrongLength 18 7)] },
       some (.errList [.parse 0 "SenderSupplied" (.tagWrongLength 18 7)])) := by
  have h := claim_C7_fixed_length_check.1 initialRState (cs "{1500}X") (by decide)
  rw [h]
  rfl

/-- Claim C9: `parseLine` classifies a line by slicing its first 6 characters
without a length guard; for every line shorter than 6 characters the slice is
out of bounds (a Go panic, modelled as `none`), and this branch is reachable
from the public `Read` entry point. -/
theorem claim_C9_short_line_unguarded :
    (∀ (st : RState) (line : List Char), line.length < 6 → parseLineM st line = none) ∧
    (∀ line : List Char, line.length < 6 → ReadModel [line] = none) := by
  have hbase : ∀ (st : RState) (line : List Char), line.length < 6 →
      parseLineM st line = none := by
    intro st line h
    unfold parseLineM
    rw [if_pos h]
  refine ⟨hbase, ?_⟩
  intro line h
  unfold ReadModel
  simp only [readLoop]
  rw [hbase _ line h]

/-- Witness for C9: a 2-character line hits the panic branch through Read. -/
theorem claim_C9_short_line_unguarded_witness :
    ReadModel [cs "ab"] = none :=
  claim_C9_short_line_unguarded.2 (cs "ab") (by decide)

theorem parseSenderSuppliedM_file (st : RState) (l : List Char) :
    (parseSenderSuppliedM st l).1.file = st.file := by
  simp only [parseSenderSuppliedM]
  split <;> rfl

theorem parseTypeSubTypeM_file (st : RState) (l : List Char) :
    (parseTypeSubTypeM st l).1.file = st.file := by
  simp only [parseTypeSubTypeM]
  split <;> rfl

theorem parseInputMessageAccountabilityDataM_file (st : RState) (l : List Char) :
    (parseInputMessageAccountabilityDataM st l).1.file = st.file := by
  simp only [parseInputMessageAccountabilityDataM]
  split <;> rfl

theorem parseAmountM_file (st : RState) (l : List Char) :
    (parseAmountM st l).1.file = st.file := by
  simp only [parseAmountM]
  split <;> rfl

theorem parseBusinessFunctionCodeM_file (st : RState) (l : List Char) :
    (parseBusinessFunctionCodeM st l).1.file = st.file := by
  simp only [parseBusinessFunctionCodeM]
  split <;> rfl

theorem parseLocalInstrumentM_file (st : RState) (l : List Char) :
    (parseLocalInstrumentM st l).1.file = st.file := by
  simp only [parseLocalInstrumentM]
  split <;> rfl

theorem parseChargesM_file (st : RState) (l : List Char) :
    (parseChargesM st l).1.file = st.file := by
  simp only [parseChargesM]
  split <;> rfl

theorem parseOriginatorM_file (st : RState) (l : List Char) :
    (parseOriginatorM st l).1.file = st.file := by
  simp only [parseOriginatorM]
  split <;> rfl

theorem parseFIPaymentMethodToBeneficiaryM_file (st : RState) (l : List Char) :
    (parseFIPaymentMethodToBeneficiaryM st l).1.file = st.file := by
  simp only [parseFIPaymentMethodToBeneficiaryM]
  split <;> rfl

theorem parseLineM_long (st : RState) (l : List Char) (h : 6 ≤ l.length) :
    ∃ st' eo, parseLineM st l = some (st', eo) ∧ st'.file = st.file := by
  simp only [parseLineM]
  rw [if_neg (by omega)]
  split_ifs with h1 h2 h3 h4 h5 h6 h7 h8 h9
  · exact ⟨_, _, rfl, parseSenderSuppliedM_file st l⟩
  · exact ⟨_, _, rfl, parseTypeSubTypeM_file st l⟩
  · exact ⟨_, _, rfl, parseInputMessageAccountabilityDataM_file st l⟩
  · exact ⟨_, _, rfl, parseAmountM_file st l⟩
  · exact ⟨_, _, rfl, parseBusinessFunctionCodeM_file st l⟩
  · exact ⟨_, _, rfl, parseLocalInstrumentM_file st l⟩
  · exact ⟨_, _, rfl, parseChargesM_file st l⟩
  · exact ⟨_, _, rfl, parseOriginatorM_file st l⟩
  · exact ⟨_, _, rfl, parseFIPaymentMethodToBeneficiaryM_file st l⟩
  · exact ⟨st, some (.raw .invalidTag), rfl, rfl⟩

theorem readLoop_long : ∀ (lines : List (List Char)) (st : RState),
    (∀ l ∈ lines, 6 ≤ l.length) →
    ∃ st', readLoop st lines = some st' ∧ st'.file = st.file
  | [], st, _ => ⟨st, rfl, rfl⟩
  | l :: ls, st, h => by
    obtain ⟨st', eo, hp, hf⟩ :=
      parseLineM_long { st with lineNum := st.lineNum + 1 } l (h l (by simp))
    simp only [readLoop]
    rw [hp]
    cases eo with
    | some e =>
      obtain ⟨st'', hl, hf2⟩ := readLoop_long ls { st' with errors := st'.errors ++ [e] }
        (fun x hx => h x (by simp [hx]))
      exact ⟨st'', hl, hf2.trans hf⟩
    | none =>
      obtain ⟨st'', hl, hf2⟩ := readLoop_long ls st' (fun x hx => h x (by simp [hx]))
      exact ⟨st'', hl, hf2.trans hf⟩

/-- Claim C10: `addCurrentFEDWireMessage` ignores its argument, only resets
the in-progress aggregate, and never appends to the file; `Read` appends
exactly one aggregate to the file — at stream end — for every input whose
lines survive the unguarded 6-character slice (cf. C9). -/
theorem claim_C10_single_finalization :
    (∀ (st : RState) (a b : FEDWireMessage),
      addCurrentFEDWireMessage st a = addCurrentFEDWireMessage st b ∧
      (addCurrentFEDWireMessage st a).file = st.file ∧
      (addCurrentFEDWireMessage st a).current = emptyFWM) ∧
    (∀ lines : List (List Char), (∀ l ∈ lines, 6 ≤ l.length) →
      ∃ (fwm : FEDWireMessage) (errs : List RErr),
        ReadModel lines = some ([fwm], errs)) := by
  refine ⟨fun st a b => ⟨rfl, rfl, rfl⟩, ?_⟩
  intro lines h
  obtain ⟨st', hl, hf⟩ := readLoop_long lines initialRState h
  refine ⟨st'.current, st'.errors, ?_⟩
  unfold ReadModel
  rw [hl]
  show some (st'.file ++ [st'.current], st'.errors) = _
  rw [hf]
  rfl

/-- Witness for C10: a two-line input (one fixed-length failure, one clean
LocalInstrument) produces a file holding exactly one aggregate. -/
theorem claim_C10_single_finalization_witness :
    ∃ (fwm : FEDWireMessage) (errs : List RErr),
      ReadModel [cs "{1500}X", cs "{3610}ANSI"] = some ([fwm], errs) :=
  claim_C10_single_finalization.2 [cs "{1500}X", cs "{3610}ANSI"] (by decide)

/-- A line whose 6-character prefix selects one of the embedded
variable-length tag variants (the helpers without a fixed-length pre-check). -/
def varTagLine (l : List Char) : Prop :=
  l.take 6 = TagLocalInstrument ∨ l.take 6 = TagCharges ∨
  l.take 6 = TagOriginator ∨ l.take 6 = TagFIPaymentMethodToBeneficiary

instance (l : List Char) : Decidable (varTagLine l) := by
  unfold varTagLine
  infer_instance

/-- The validation outcome the reader helper acts on for a variable-variant
line (the decode error itself is discarded by the helpers). -/
def lineError (l : List Char) : Option WireErr :=
  if l.take 6 = TagLocalInstrument then
    (LocalInstrument.Parse zeroLocalInstrument l).1.Validate
  else if l.take 6 = TagCharges then (Charges.Parse zeroCharges l).1.Validate
  else if l.take 6 = TagOriginator then (Originator.Parse zeroOriginator l).1.Validate
  else if l.take 6 = TagFIPaymentMethodToBeneficiary then
    (FIPaymentMethodToBeneficiary.Parse zeroFIPaymentMethodToBeneficiary l).1.Validate
  else none

/-- A variable-variant line is malformed for the reader when the tag populated
by the permissive decode fails Validate. -/
def lineFails (l : List Char) : Bool := (lineError l).isSome

/-- The LocalInstrument stored by a clean LocalInstrument line, if any. -/
def storedLocalInstrument (l : List Char) : Option LocalInstrument :=
  if l.take 6 = TagLocalInstrument ∧ lineError l = none then
    some (LocalInstrument.Parse zeroLocalInstrument l).1
  else none

/-- The Charges stored by a clean Charges line, if any. -/
def storedCharges (l : List Char) : Option Charges :=
  if l.take 6 = TagCharges ∧ lineError l = none then
    some (Charges.Parse zeroCharges l).1
  else none

/-- The Originator stored by a clean Originator line, if any. -/
def storedOriginator (l : List Char) : Option Originator :=
  if l.take 6 = TagOriginator ∧ lineError l = none then
    some (Originator.Parse zeroOriginator l).1
  else none

/-- The FIPaymentMethodToBeneficiary stored by a clean line, if any. -/
def storedFIPaymentMethodToBeneficiary (l : List Char) :
    Option FIPaymentMethodToBeneficiary :=
  if l.take 6 = TagFIPaymentMethodToBeneficiary ∧ lineError l = none then
    some (FIPaymentMethodToBeneficiary.Parse zeroFIPaymentMethodToBeneficiary l).1
  else none

/-- Left-biased choice on options (last-write-wins bookkeeping). -/
def optOr {α : Type} : Option α → Option α → Option α
  | some a, _ => some a
  | none, b => b

theorem optOr_none_right {α : Type} : ∀ x : Option α, optOr x none = x
  | some _ => rfl
  | none => rfl

theorem optOr_absorb {α : Type} (y : Option α) (a : α) (x : Option α) :
    optOr (optOr y (some a)) x = optOr y (some a) := by
  cases y <;> rfl

theorem getLast?_cons_optOr {α : Type} : ∀ (t : List α) (a : α),
    (a :: t).getLast? = optOr t.getLast? (some a)
  | [], a => rfl
  | b :: t, a => by
    rw [List.getLast?_cons_cons, getLast?_cons_optOr t b]
    cases t.getLast? <;> rfl

theorem optOr_getLast?_filterMap_cons {α : Type} (f : List Char → Option α)
    (l : List Char) (ls : List (List Char)) (v : Option α) :
    optOr ((l :: ls).filterMap f).getLast? v =
      optOr (ls.filterMap f).getLast? (optOr (f l) v) := by
  cases hf : f l with
  | none => rw [List.filterMap_cons_none hf]; rfl
  | some b =>
    rw [List.filterMap_cons_some hf, getLast?_cons_optOr, optOr_absorb]
    rfl

theorem varLine_length {l : List Char} (h : varTagLine l) : 6 ≤ l.length := by
  have htake : (l.take 6).length = 6 := by
    rcases h with h | h | h | h <;> rw [h] <;> rfl
  rw [List.length_take] at htake
  omega

theorem parseLineM_var_spec (st : RState) (l : List Char) (hvar : varTagLine l) :
    ∃ st₁ eo, parseLineM st l = some (st₁, eo) ∧
      st₁.file = st.file ∧
      st₁.errors = st.errors ∧
      eo.isSome = lineFails l ∧
      st₁.current.localInstrument =
        optOr (storedLocalInstrument l) st.current.localInstrument ∧
      st₁.current.charges = optOr (storedCharges l) st.current.charges ∧
      st₁.current.originator = optOr (storedOriginator l) st.current.originator ∧
      st₁.current.fiPaymentMethodToBeneficiary =
        optOr (storedFIPaymentMethodToBeneficiary l)
          st.current.fiPaymentMethodToBeneficiary ∧
      st₁.current.senderSupplied = st.current.senderSupplied ∧
      st₁.current.typeSubType = st.current.typeSubType ∧
      st₁.current.inputMessageAccountabilityData =
        st.current.inputMessageAccountabilityData ∧
      st₁.current.amount = st.current.amount ∧
      st₁.current.businessFunctionCode = st.current.businessFunctionCode := by
  have hlen := varLine_length hvar
  simp only [parseLineM]
  rw [if_neg (by omega)]
  rcases hvar with hl | hl | hl | hl
  · have hn1 : l.take 6 ≠ TagSenderSupplied := by rw [hl]; decide
    have hn2 : l.take 6 ≠ TagTypeSubType := by rw [hl]; decide
    have hn3 : l.take 6 ≠ TagInputMessageAccountabilityData := by rw [hl]; decide
    have hn4 : l.take 6 ≠ TagAmount := by rw [hl]; decide
    have hn5 : l.take 6 ≠ TagBusinessFunctionCode := by rw [hl]; decide
    have hnC : l.take 6 ≠ TagCharges := by rw [hl]; decide
    have hnO : l.take 6 ≠ TagOriginator := by rw [hl]; decide
    have hnF : l.take 6 ≠ TagFIPaymentMethodToBeneficiary := by rw [hl]; decide
    have hle : lineError l = (LocalInstrument.Parse zeroLocalInstrument l).1.Validate := by
      simp [lineError, hl]
    rw [if_neg hn1, if_neg hn2, if_neg hn3, if_neg hn4, if_neg hn5, if_pos hl]
    cases hval : (LocalInstrument.Parse zeroLocalInstrument l).1.Validate with
    | some e =>
      rw [parseLocalInstrumentM_err hval]
      refine ⟨_, _, rfl, rfl, rfl, ?_, ?_, ?_, ?_, ?_, rfl, rfl, rfl, rfl, rfl⟩
      · simp [lineFails, hle, hval]
      · simp [storedLocalInstrument, hle, hval, optOr]
      · simp [storedCharges, hnC, optOr]
      · simp [storedOriginator, hnO, optOr]
      · simp [storedFIPaymentMethodToBeneficiary, hnF, optOr]
    | none =>
      rw [parseLocalInstrumentM_ok hval]
      refine ⟨_, _, rfl, rfl, rfl, ?_, ?_, ?_, ?_, ?_, rfl, rfl, rfl, rfl, rfl⟩
      · simp [lineFails, hle, hval]
      · simp [storedLocalInstrument, hl, hle, hval, optOr,
          FEDWireMessage.SetLocalInstrument]
      · simp [storedCharges, hnC, optOr, FEDWireMessage.SetLocalInstrument]
      · simp [storedOriginator, hnO, optOr, FEDWireMessage.SetLocalInstrument]
      · simp [storedFIPaymentMethodToBeneficiary, hnF, optOr,
          FEDWireMessage.SetLocalInstrument]
  · have hn1 : l.take 6 ≠ TagSenderSupplied := by rw [hl]; decide
    have hn2 : l.take 6 ≠ TagTypeSubType := by rw [hl]; decide
    have hn3 : l.take 6 ≠ TagInputMessageAccountabilityData := by rw [hl]; decide
    have hn4 : l.take 6 ≠ TagAmount := by rw [hl]; decide
    have hn5 : l.take 6 ≠ TagBusinessFunctionCode := by rw [hl]; decide
    have hnL : l.take 6 ≠ TagLocalInstrument := by rw [hl]; decide
    have hnO : l.take 6 ≠ TagOriginator := by rw [hl]; decide
    have hnF : l.take 6 ≠ TagFIPaymentMethodToBeneficiary := by rw [hl]; decide
    have hle : lineError l = (Charges.Parse zeroCharges l).1.Validate := by
      simp only [lineError, hl]
      rw [if_neg (show TagCharges ≠ TagLocalInstrument from by decide)]
      simp
    rw [if_neg hn1, if_neg hn2, if_neg hn3, if_neg hn4, if_neg hn5, if_neg hnL,
      if_pos hl]
    cases hval : (Charges.Parse zeroCharges l).1.Validate with
    | some e =>
      rw [parseChargesM_err hval]
      refine ⟨_, _, rfl, rfl, rfl, ?_, ?_, ?_, ?_, ?_, rfl, rfl, rfl, rfl, rfl⟩
      · simp [lineFails, hle, hval]
      · simp [storedLocalInstrument, hnL, optOr]
      · simp [storedCharges, hle, hval, optOr]
      · simp [storedOriginator, hnO, optOr]
      · simp [storedFIPaymentMethodToBeneficiary, hnF, optOr]
    | none =>
      rw [parseChargesM_ok hval]
      refine ⟨_, _, rfl, rfl, rfl, ?_, ?_, ?_, ?_, ?_, rfl, rfl, rfl, rfl, rfl⟩
      · simp [lineFails, hle, hval]
      · simp [storedLocalInstrument, hnL, optOr, FEDWireMessage.SetCharges]
      · simp [storedCharges, hl, hle, hval, optOr, FEDWireMessage.SetCharges]
      · simp [storedOriginator, hnO, optOr, FEDWireMessage.SetCharges]
      · simp [storedFIPaymentMethodToBeneficiary, hnF, optOr, FEDWireMessage.SetCharges]
  · have hn1 : l.take 6 ≠ TagSenderSupplied := by rw [hl]; decide
    have hn2 : l.take 6 ≠ TagTypeSubType := by rw [hl]; decide
    have hn3 : l.take 6 ≠ TagInputMessageAccountabilityData := by rw [hl]; decide
    have hn4 : l.take 6 ≠ TagAmount := by rw [hl]; decide
    have hn5 : l.take 6 ≠ TagBusinessFunctionCode := by rw [hl]; decide
    have hnL : l.take 6 ≠ TagLocalInstrument := by rw [hl]; decide
    have hnC : l.take 6 ≠ TagCharges := by rw [hl]; decide
    have hnF : l.take 6 ≠ TagFIPaymentMethodToBeneficiary := by rw [hl]; decide
    have hle : lineError l = (Originator.Parse zeroOriginator l).1.Validate := by
      simp only [lineError, hl]
      rw [if_neg (show TagOriginator ≠ TagLocalInstrument from by decide),
        if_neg (show TagOriginator ≠ TagCharges from by decide)]
      simp
    rw [if_neg hn1, if_neg hn2, if_neg hn3, if_neg hn4, if_neg hn5, if_neg hnL,
      if_neg hnC, if_pos hl]
    cases hval : (Originator.Parse zeroOriginator l).1.Validate with
    | some e =>
      rw [parseOriginatorM_err hval]
      refine ⟨_, _, rfl, rfl, rfl, ?_, ?_, ?_, ?_, ?_, rfl, rfl, rfl, rfl, rfl⟩
      · simp [lineFails, hle, hval]
      · simp [storedLocalInstrument, hnL, optOr]
      · simp [storedCharges, hnC, optOr]
      · simp [storedOriginator, hle, hval, optOr]
      · simp [storedFIPaymentMethodToBeneficiary, hnF, optOr]
    | none =>
      rw [parseOriginatorM_ok hval]
      refine ⟨_, _, rfl, rfl, rfl, ?_, ?_, ?_, ?_, ?_, rfl, rfl, rfl, rfl, rfl⟩
      · simp [lineFails, hle, hval]
      · simp [storedLocalInstrument, hnL, optOr, FEDWireMessage.SetOriginator]
      · simp [storedCharges, hnC, optOr, FEDWireMessage.SetOriginator]
      · simp [storedOriginator, hl, hle, hval, optOr, FEDWireMessage.SetOriginator]
      · simp [storedFIPaymentMethodToBeneficiary, hnF, optOr,
          FEDWireMessage.SetOriginator]
  · have hn1 : l.take 6 ≠ TagSenderSupplied := by rw [hl]; decide
    have hn2 : l.take 6 ≠ TagTypeSubType := by rw [hl]; decide
    have hn3 : l.take 6 ≠ TagInputMessageAccountabilityData := by rw [hl]; decide
    have hn4 : l.take 6 ≠ TagAmount := by rw [hl]; decide
    have hn5 : l.take 6 ≠ TagBusinessFunctionCode := by rw [hl]; decide
    have hnL : l.take 6 ≠ TagLocalInstrument := by rw [hl]; decide
    have hnC : l.take 6 ≠ TagCharges := by rw [hl]; decide
    have hnO : l.take 6 ≠ TagOriginator := by rw [hl]; decide
    have hle : lineError l =
        (FIPaymentMethodToBeneficiary.Parse zeroFIPaymentMethodToBeneficiary
          l).1.Validate := by
      simp only [lineError, hl]
      rw [if_neg (show TagFIPaymentMethodToBeneficiary ≠ TagLocalInstrument from by decide),
        if_neg (show TagFIPaymentMethodToBeneficiary ≠ TagCharges from by decide),
        if_neg (show TagFIPaymentMethodToBeneficiary ≠ TagOriginator from by decide)]
      simp
    rw [if_neg hn1, if_neg hn2, if_neg hn3, if_neg hn4, if_neg hn5, if_neg hnL,
      if_neg hnC, if_neg hnO, if_pos hl]
    cases hval : (FIPaymentMethodToBeneficiary.Parse zeroFIPaymentMethodToBeneficiary
        l).1.Validate with
    | some e =>
      rw [parseFIPaymentMethodToBeneficiaryM_err hval]
      refine ⟨_, _, rfl, rfl, rfl, ?_, ?_, ?_, ?_, ?_, rfl, rfl, rfl, rfl, rfl⟩
      · simp [lineFails, hle, hval]
      · simp [storedLocalInstrument, hnL, optOr]
      · simp [storedCharges, hnC, optOr]
      · simp [storedOriginator, hnO, optOr]
      · simp [storedFIPaymentMethodToBeneficiary, hle, hval, optOr]
    | none =>
      rw [parseFIPaymentMethodToBeneficiaryM_ok hval]
      refine ⟨_, _, rfl, rfl, rfl, ?_, ?_, ?_, ?_, ?_, rfl, rfl, rfl, rfl, rfl⟩
      · simp [lineFails, hle, hval]
      · simp [storedLocalInstrument, hnL, optOr,
          FEDWireMessage.SetFIPaymentMethodToBeneficiary]
      · simp [storedCharges, hnC, optOr, FEDWireMessage.SetFIPaymentMethodToBeneficiary]
      · simp [storedOriginator, hnO, optOr,
          FEDWireMessage.SetFIPaymentMethodToBeneficiary]
      · simp [storedFIPaymentMethodToBeneficiary, hl, hle, hval, optOr,
          FEDWireMessage.SetFIPaymentMethodToBeneficiary]

theorem readLoop_var : ∀ (lines : List (List Char)) (st : RState),
    (∀ l ∈ lines, varTagLine l) →
    ∃ st', readLoop st lines = some st' ∧
      st'.file = st.file ∧
      st'.errors.length = st.errors.length + (lines.filter lineFails).length ∧
      st'.current.localInstrument =
        optOr (lines.filterMap storedLocalInstrument).getLast?
          st.current.localInstrument ∧
      st'.current.charges =
        optOr (lines.filterMap storedCharges).getLast? st.current.charges ∧
      st'.current.originator =
        optOr (lines.filterMap storedOriginator).getLast? st.current.originator ∧
      st'.current.fiPaymentMethodToBeneficiary =
        optOr (lines.filterMap storedFIPaymentMethodToBeneficiary).getLast?
          st.current.fiPaymentMethodToBeneficiary ∧
      st'.current.senderSupplied = st.current.senderSupplied ∧
      st'.current.typeSubType = st.current.typeSubType ∧
      st'.current.inputMessageAccountabilityData =
        st.current.inputMessageAccountabilityData ∧
      st'.current.amount = st.current.amount ∧
      st'.current.businessFunctionCode = st.current.businessFunctionCode
  | [], st, _ => ⟨st, rfl, rfl, by simp, by simp [optOr], by simp [optOr],
      by simp [optOr], by simp [optOr], rfl, rfl, rfl, rfl, rfl⟩
  | l :: ls, st, h => by
    obtain ⟨st₁, eo, hp, hfile, herrs, hfails, hLI, hC, hO, hF, hf1, hf2, hf3, hf4, hf5⟩ :=
      parseLineM_var_spec { st with lineNum := st.lineNum + 1 } l (h l (by simp))
    simp only [readLoop]
    rw [hp]
    cases eo with
    | some e =>
      obtain ⟨st'', hl, hfile2, herrs2, hLI2, hC2, hO2, hF2, hg1, hg2, hg3, hg4, hg5⟩ :=
        readLoop_var ls { st₁ with errors := st₁.errors ++ [e] }
          (fun x hx => h x (by simp [hx]))
      have hfailsl : lineFails l = true := by
        rw [← hfails]
        rfl
      refine ⟨st'', hl, ?_, ?_, ?_, ?_, ?_, ?_, ?_, ?_, ?_, ?_, ?_⟩
      · exact hfile2.trans hfile
      · rw [herrs2]
        simp only [List.length_append, herrs, List.filter_cons, hfailsl]
        simp
        omega
      · rw [hLI2, optOr_getLast?_filterMap_cons]
        show _ = optOr _ (optOr _ st.current.localInstrument)
        rw [← hLI]
      · rw [hC2, optOr_getLast?_filterMap_cons]
        show _ = optOr _ (optOr _ st.current.charges)
        rw [← hC]
      · rw [hO2, optOr_getLast?_filterMap_cons]
        show _ = optOr _ (optOr _ st.current.originator)
        rw [← hO]
      · rw [hF2, optOr_getLast?_filterMap_cons]
        show _ = optOr _ (optOr _ st.current.fiPaymentMethodToBeneficiary)
        rw [← hF]
      · exact hg1.trans hf1
      · exact hg2.trans hf2
      · exact hg3.trans hf3
      · exact hg4.trans hf4
      · exact hg5.trans hf5
    | none =>
      obtain ⟨st'', hl, hfile2, herrs2, hLI2, hC2, hO2, hF2, hg1, hg2, hg3, hg4, hg5⟩ :=
        readLoop_var ls st₁ (fun x hx => h x (by simp [hx]))
      have hfailsl : lineFails l = false := by
        rw [← hfails]
        rfl
      refine ⟨st'', hl, ?_, ?_, ?_, ?_, ?_, ?_, ?_, ?_, ?_, ?_, ?_⟩
      · exact hfile2.trans hfile
      · rw [herrs2, herrs]
        simp only [List.filter_cons, hfailsl]
        rfl
      · rw [hLI2, optOr_getLast?_filterMap_cons, ← hLI]
      · rw [hC2, optOr_getLast?_filterMap_cons, ← hC]
      · rw [hO2, optOr_getLast?_filterMap_cons, ← hO]
      · rw [hF2, optOr_getLast?_filterMap_cons, ← hF]
      · exact hg1.trans hf1
      · exact hg2.trans hf2
      · exact hg3.trans hf3
      · exact hg4.trans hf4
      · exact hg5.trans hf5

/-- Claim C5 as stated is false: of these two lines, the first is malformed in
the claim's sense (its decode fails with `TagMaxLengthError`), so N = 2 and
M = 1, yet `Read` returns an empty error list (not exactly M = 1 errors) and
populates both tags (not exactly N − M = 1): the helpers discard decode
errors, and the partially decoded first tag validates and is stored. -/
theorem claim_C5_counterexample :
    (LocalInstrument.Parse zeroLocalInstrument (cs "{3610}COVS**X")).2 =
      some .tagMaxLength ∧
    ReadModel [cs "{3610}COVS**X", cs "{6420}CHECK*"] =
      some ([{ localInstrument := some ⟨cs "{3610}", cs "COVS", []⟩,
               fiPaymentMethodToBeneficiary := some ⟨cs "{6420}", cs "CHECK", []⟩ }],
            []) :=
  ⟨by decide, by rfl⟩

/-- Claim C5, amended: for every input whose lines all carry one of the
variable-length tag prefixes (LocalInstrument, Charges, Originator,
FIPaymentMethodToBeneficiary), with a line counted as malformed when the tag
populated by its permissive decode fails `Validate` (decode errors are
discarded, and the fixed-length pre-checked variants add two error entries per
bad line, so both restrictions are necessary), `Read` returns exactly M
line-tagged errors for the M malformed lines and an aggregate in which each
variant holds the tag of its last clean line and every other tag is absent. -/
theorem claim_C5_partial_failure_amended :
    ∀ lines : List (List Char), (∀ l ∈ lines, varTagLine l) →
    ∃ (fwm : FEDWireMessage) (errs : List RErr),
      ReadModel lines = some ([fwm], errs) ∧
      errs.length = (lines.filter lineFails).length ∧
      fwm.localInstrument = (lines.filterMap storedLocalInstrument).getLast? ∧
      fwm.charges = (lines.filterMap storedCharges).getLast? ∧
      fwm.originator = (lines.filterMap storedOriginator).getLast? ∧
      fwm.fiPaymentMethodToBeneficiary =
        (lines.filterMap storedFIPaymentMethodToBeneficiary).getLast? ∧
      fwm.senderSupplied = none ∧ fwm.typeSubType = none ∧
      fwm.inputMessageAccountabilityData = none ∧ fwm.amount = none ∧
      fwm.businessFunctionCode = none := by
  intro lines h
  obtain ⟨st', hl, hfile, herrs, hLI, hC, hO, hF, hg1, hg2, hg3, hg4, hg5⟩ :=
    readLoop_var lines initialRState h
  refine ⟨st'.current, st'.errors, ?_, ?_, ?_, ?_, ?_, ?_, hg1, hg2, hg3, hg4, hg5⟩
  · unfold ReadModel
    rw [hl]
    show some (st'.file ++ [st'.current], st'.errors) = _
    rw [hfile]
    rfl
  · rw [herrs]
    simp [initialRState]
  · rw [hLI]
    exact optOr_none_right _
  · rw [hC]
    exact optOr_none_right _
  · rw [hO]
    exact optOr_none_right _
  · rw [hF]
    exact optOr_none_right _

/-- Witness for the amended C5: two variable-variant lines, the first failing
validation (unknown local-instrument code ZZZZ) and the second clean, produce
exactly one error and populate exactly the FIPaymentMethodToBeneficiary tag. -/
theorem claim_C5_partial_failure_amended_witness :
    ∃ (fwm : FEDWireMessage) (errs : List RErr),
      ReadModel [cs "{3610}ZZZZ", cs "{6420}CHECK*"] = some ([fwm], errs) ∧
      errs.length = ([cs "{3610}ZZZZ", cs "{6420}CHECK*"].filter lineFails).length ∧
      fwm.localInstrument =
        ([cs "{3610}ZZZZ", cs "{6420}CHECK*"].filterMap storedLocalInstrument).getLast? ∧
      fwm.charges =
        ([cs "{3610}ZZZZ", cs "{6420}CHECK*"].filterMap storedCharges).getLast? ∧
      fwm.originator =
        ([cs "{3610}ZZZZ", cs "{6420}CHECK*"].filterMap storedOriginator).getLast? ∧
      fwm.fiPaymentMethodToBeneficiary =
        ([cs "{3610}ZZZZ", cs "{6420}CHECK*"].filterMap
          storedFIPaymentMethodToBeneficiary).getLast? ∧
      fwm.senderSupplied = none ∧ fwm.typeSubType = none ∧
      fwm.inputMessageAccountabilityData = none ∧ fwm.amount = none ∧
      fwm.businessFunctionCode = none :=
  claim_C5_partial_failure_amended [cs "{3610}ZZZZ", cs "{6420}CHECK*"] (by decide)

/-- Claim C4 as stated is false: a LocalInstrument whose code is PROP and
whose proprietary code is empty passes Validate with no error; the source's
`LocalInstrument.fieldInclusion` has no FieldRequired branch. -/
theorem claim_C4_counterexample :
    LocalInstrument.Validate ⟨TagLocalInstrument, cs "PROP", []⟩ = none := by decide

/-- Claim C4, amended: a populated ProprietaryCode without the PROP code is an
`InvalidPropertyError`; Originator's identification-code/identifier pairing is
enforced with `FieldRequiredError` in both directions; LocalInstrument imposes
no requirement that ProprietaryCode be present when the code is PROP (that
combination validates cleanly). -/
theorem claim_C4_conditional_inclusion_amended :
    (∀ li : LocalInstrument, li.LocalInstrumentCode ≠ ProprietaryLocalInstrumentCode →
      li.ProprietaryCode ≠ [] →
      li.Validate = some (.invalidProperty "ProprietaryCode")) ∧
    (∀ o : Originator, o.Personal.IdentificationCode ≠ [] → o.Personal.Identifier = [] →
      o.Validate = some (.fieldRequired "Identifier")) ∧
    (∀ o : Originator, o.Personal.IdentificationCode = [] → o.Personal.Identifier ≠ [] →
      o.Validate = some (.fieldRequired "IdentificationCode")) ∧
    LocalInstrument.Validate ⟨TagLocalInstrument, cs "PROP", []⟩ = none := by
  refine ⟨?_, ?_, ?_, by decide⟩
  · intro li h1 h2
    unfold LocalInstrument.Validate LocalInstrument.fieldInclusion
    rw [if_pos ⟨h1, h2⟩]
  · intro o h1 h2
    unfold Originator.Validate Originator.fieldInclusion
    rw [if_pos ⟨h1, h2⟩]
  · intro o h1 h2
    unfold Originator.Validate Originator.fieldInclusion
    rw [if_neg (by simp [h1]), if_pos ⟨h1, h2⟩]

/-- Witness for the amended C4: an ANSI-coded LocalInstrument carrying a
proprietary code is rejected with `InvalidPropertyError`, and an Originator
with an identification code but no identifier is rejected with
`FieldRequiredError`. -/
theorem claim_C4_conditional_inclusion_amended_witness :
    LocalInstrument.Validate ⟨TagLocalInstrument, cs "ANSI", cs "X"⟩ =
      some (.invalidProperty "ProprietaryCode") ∧
    Originator.Validate ⟨TagOriginator, ⟨cs "D", [], [], ⟨[], [], []⟩⟩⟩ =
      some (.fieldRequired "Identifier") :=
  ⟨claim_C4_conditional_inclusion_amended.1 ⟨TagLocalInstrument, cs "ANSI", cs "X"⟩
      (by decide) (by decide),
   claim_C4_conditional_inclusion_amended.2.1 ⟨TagOriginator, ⟨cs "D", [], [], ⟨[], [], []⟩⟩⟩
      (by decide) (by decide)⟩

end Wire
